import Mathlib

/-!
# Verification development for the Octopus CLI test transport and helpers

Shallow embedding of

* `test/testutil/fakeoctopusserver.go` : the rendezvous mock transport
  (`MockHttpServer`) and the test-side driver (`ExpectRequest`, `RespondWith`);
* `pkg/cmd/account/helper/helper.go` : `ResolveEnvironmentNames`;
* `pkg/executor/account.go` : `accountCreate`;
* `pkg/question/selectors/projects.go` : `FindProject`.

Concurrency is embedded as an interleaving small-step semantics.  Every method
of `MockHttpServer` is a table from program points (named after the source
line they stand on) to the single shared-memory or channel action of that
line.  Two goroutines are modelled: the client (code under test, calling
`RoundTrip`) and the driver (the test body).  A Go `error` is the string of
its message, a nil pointer or nil error is `none`.
-/

namespace Octopus

/-! ## Data model of `fakeoctopusserver.go` -/

/-- The fields of `*http.Request` that the source reads: `r.Method`,
`r.URL.Path` and `r.URL.RawQuery` (the `URL` pointer of a request handed to a
`RoundTripper` by `http.Client` is never nil). -/
structure Request where
  Method : String
  Path : String
  RawQuery : String
deriving DecidableEq, Repr

/-- The fields of `http.Response` that the source sets.  `Body` is the byte
content of the reader `ioutil.NopCloser(bytes.NewReader(body))`. -/
structure Response where
  StatusCode : Int
  Body : List UInt8
  ContentLength : Int
deriving DecidableEq, Repr

/-- Go struct `responseOrError`; its zero value is `⟨none, none⟩`. -/
structure responseOrError where
  response : Option Response
  error : Option String
deriving DecidableEq, Repr

/-- State of an unbuffered Go channel.  It never stores a value: a send and a
receive complete together. -/
inductive Chan where
  | nil
  | made
  | closed
deriving DecidableEq, Repr

/-- Go struct `MockHttpServer`. -/
structure MockHttpServer where
  Request : Chan
  Response : Chan
  pendingMsgCount : Int
  Closed : Bool
deriving DecidableEq, Repr

/-- Address of a `MockHttpServer` (`0` is the nil pointer). -/
abbrev ServerPtr := Nat

/-- Go struct `RequestWrapper`. -/
structure RequestWrapper where
  Request : Option Request
  Server : ServerPtr
deriving DecidableEq, Repr

/-- Source `NewMockHttpServer`: both channels made, counter 0, not closed. -/
def NewMockHttpServer : MockHttpServer :=
  { Request := .made, Response := .made, pendingMsgCount := 0, Closed := false }

/-- Result of `atomic.AddInt32`: two's complement addition on 32 bits. -/
def addInt32 (x delta : Int) : Int :=
  (x + delta + 2147483648) % 4294967296 - 2147483648

/-! ### The host test framework -/

/-- One failure recorded on a `*testing.T`. -/
inductive Failure where
  | Errorf (msg : String)
  | NotEqual (expected actual : String)
deriving DecidableEq, Repr

/-- The part of `*testing.T` the source touches: the failures recorded so
far.  Recording a failure never stops the test (`Errorf`, not `Fatalf`). -/
structure T where
  failures : List Failure
deriving DecidableEq, Repr

/-- Method `t.Errorf(msg)`: records the failure and returns. -/
def T.Errorf (t : T) (msg : String) : T :=
  { failures := t.failures ++ [Failure.Errorf msg] }

/-- Function `assert.Equal(t, expected, actual)` of testify on two strings:
records a failure through `t.Errorf` exactly when the strings differ. -/
def assertEqual (t : T) (expected actual : String) : T :=
  if expected = actual then t
  else { failures := t.failures ++ [Failure.NotEqual expected actual] }

/-! ### Program points and actions -/

/-- Where a thread goes after a statement: on to another program point of the
same function, or back to the caller with a value. -/
inductive Next (Pc R : Type) where
  | goto (pc : Pc)
  | ret (v : R)

/-- The effect of one source statement on the shared state. -/
inductive Action (Pc R : Type) where
  /-- Statement `atomic.AddInt32(&m.pendingMsgCount, delta)`. -/
  | addPending (delta : Int) (k : Next Pc R)
  /-- Statement `m.Request <- r`. -/
  | sendRequest (r : Option Request) (k : Next Pc R)
  /-- Expression `<-m.Request`. -/
  | recvRequest (k : Option Request → Next Pc R)
  /-- Statement `m.Response <- x`. -/
  | sendResponse (x : responseOrError) (k : Next Pc R)
  /-- Expression `<-m.Response`. -/
  | recvResponse (k : responseOrError → Next Pc R)
  /-- Statement `m.Closed = v`. -/
  | storeClosed (v : Bool) (k : Next Pc R)
  /-- Read of `m.Closed`. -/
  | loadClosed (k : Bool → Next Pc R)
  /-- Statement `close(m.Request)`. -/
  | closeRequest (k : Next Pc R)
  /-- Statement `close(m.Response)`. -/
  | closeResponse (k : Next Pc R)
  /-- Read of `m.pendingMsgCount`. -/
  | loadPending (k : Int → Next Pc R)
  /-- Computation on locals only. -/
  | tau (k : Next Pc R)
  /-- A Go run-time panic. -/
  | panic (msg : String)

/-- Embeds the action of a callee into its caller: `f` says where the caller
continues for each continuation of the callee. -/
def Action.mapk {Pc R Pc2 R2 : Type} (f : Next Pc R → Next Pc2 R2) :
    Action Pc R → Action Pc2 R2
  | .addPending d k => .addPending d (f k)
  | .sendRequest r k => .sendRequest r (f k)
  | .recvRequest k => .recvRequest (fun r => f (k r))
  | .sendResponse x k => .sendResponse x (f k)
  | .recvResponse k => .recvResponse (fun x => f (k x))
  | .storeClosed v k => .storeClosed v (f k)
  | .loadClosed k => .loadClosed (fun b => f (k b))
  | .closeRequest k => .closeRequest (f k)
  | .closeResponse k => .closeResponse (f k)
  | .loadPending k => .loadPending (fun n => f (k n))
  | .tau k => .tau (f k)
  | .panic msg => .panic msg

/-! ### The methods of `MockHttpServer`, statement by statement -/

/-- Program points of `RoundTrip` (source lines 67 to 75). -/
inductive RoundTripPc where
  | l67
  | l68
  | l69
  | l72
  | l73
  | l74 (x : responseOrError)
deriving DecidableEq, Repr

/-- Source `MockHttpServer.RoundTrip(r)`. -/
def RoundTrip (r : Request) :
    RoundTripPc → Action RoundTripPc (Option Response × Option String)
  | .l67 => .addPending 1 (.goto .l68)
  | .l68 => .sendRequest (some r) (.goto .l69)
  | .l69 => .addPending (-1) (.goto .l72)
  | .l72 => .addPending 1 (.goto .l73)
  | .l73 => .recvResponse (fun x => .goto (.l74 x))
  | .l74 x => .addPending (-1) (.ret (x.response, x.error))

/-- Program points of `Close` (source lines 86 to 88). -/
inductive ClosePc where
  | l86
  | l87
  | l88
deriving DecidableEq, Repr

/-- Source `MockHttpServer.Close()`. -/
def Close : ClosePc → Action ClosePc Unit
  | .l86 => .storeClosed true (.goto .l87)
  | .l87 => .closeRequest (.goto .l88)
  | .l88 => .closeResponse (.ret ())

/-- Source `MockHttpServer.GetPendingMessageCount()`. -/
def GetPendingMessageCount : Unit → Action Unit Int
  | () => .loadPending (fun n => .ret n)

/-- Program points of `ReceiveRequest` (source lines 96 to 99). -/
inductive ReceiveRequestPc where
  | l96
  | l97
  | l98 (request : Option Request)
  | l99 (request : Option Request)
deriving DecidableEq, Repr

/-- Source `MockHttpServer.ReceiveRequest()`. -/
def ReceiveRequest : ReceiveRequestPc → Action ReceiveRequestPc (Option Request × Bool)
  | .l96 => .addPending 1 (.goto .l97)
  | .l97 => .recvRequest (fun request => .goto (.l98 request))
  | .l98 request => .addPending (-1) (.goto (.l99 request))
  | .l99 request => .loadClosed (fun closed => .ret (request, !closed))

/-- Program points of `Respond` (source lines 103 to 109). -/
inductive RespondPc where
  | l103
  | l107
  | l108
  | l109
deriving DecidableEq, Repr

/-- Source `MockHttpServer.Respond(response, err)`. -/
def Respond (response : Option Response) (err : Option String) :
    RespondPc → Action RespondPc Unit
  | .l103 => .loadClosed (fun closed => if closed then .ret () else .goto .l107)
  | .l107 => .addPending 1 (.goto .l108)
  | .l108 => .sendResponse { response := response, error := err } (.goto .l109)
  | .l109 => .addPending (-1) (.ret ())

/-- Program points of `ExpectRequest`: inside the call of `ReceiveRequest` on
line 115, or on line 116 with its two results. -/
inductive ExpectRequestPc where
  | l115 (pc : ReceiveRequestPc)
  | l116 (r : Option Request) (ok : Bool)
deriving DecidableEq, Repr

/-- Lines 122 to 125 of `ExpectRequest`: the path, followed by `?` and the raw
query when the raw query is not empty. -/
def rPathAndQuery (r : Request) : String :=
  if r.RawQuery ≠ "" then r.Path ++ "?" ++ r.RawQuery else r.Path

/-- Source `MockHttpServer.ExpectRequest(t, method, pathAndQuery)` on the
server at address `m`.  A nil request with `ok` true is dereferenced on line
122, which panics. -/
def ExpectRequest (m : ServerPtr) (t : T) (method pathAndQuery : String) :
    ExpectRequestPc → Action ExpectRequestPc (T × RequestWrapper)
  | .l115 pc =>
    (ReceiveRequest pc).mapk fun
      | .goto pc2 => .goto (.l115 pc2)
      | .ret (r, ok) => .goto (.l116 r ok)
  | .l116 _ false =>
    .tau (.ret (t.Errorf ("ExpectRequest " ++ method ++ " " ++ pathAndQuery ++
      " failed; channel closed"), { Request := none, Server := m }))
  | .l116 none true => .panic "invalid memory address or nil pointer dereference"
  | .l116 (some r) true =>
    .tau (.ret (assertEqual (assertEqual t method r.Method) pathAndQuery (rPathAndQuery r),
      { Request := some r, Server := m }))

/-- Program points of `RespondWith`: the nil check and marshalling (lines 139
to 143), then inside the call of `Respond` on line 149. -/
inductive RespondWithPc where
  | l139
  | l149 (pc : RespondPc)
deriving DecidableEq, Repr

/-- Line 143, `body, _ := json.Marshal(responseObject)`: the error is
discarded; `json.Marshal` returns nil bytes together with an error. -/
def marshalBody {P : Type} (jsonMarshal : P → Except String (List UInt8)) (obj : P) :
    List UInt8 :=
  match jsonMarshal obj with
  | .ok body => body
  | .error _ => []

/-- The response built on lines 149 to 153 from the marshalled body. -/
def okResponse (body : List UInt8) : Response :=
  { StatusCode := 200, Body := body, ContentLength := body.length }

/-- Source `RequestWrapper.RespondWith(responseObject)`; `jsonMarshal` is
`json.Marshal` of the Go standard library, `none` is the nil interface. -/
def RespondWith {P : Type} (jsonMarshal : P → Except String (List UInt8))
    (responseObject : Option P) : RespondWithPc → Action RespondWithPc Unit
  | .l139 =>
    match responseObject with
    | none => .panic "TODO: implement responses with no body"
    | some _ => .tau (.goto (.l149 .l103))
  | .l149 pc =>
    match responseObject with
    | none => .panic "TODO: implement responses with no body"
    | some obj =>
      (Respond (some (okResponse (marshalBody jsonMarshal obj))) none pc).mapk fun
        | .goto pc2 => .goto (.l149 pc2)
        | .ret () => .ret ()

/-! ### The two goroutines and the interleaving semantics -/

/-- The client goroutine (code under test): it issues the requests of `todo`
one at a time through `RoundTrip` and keeps what each call returned. -/
structure Client where
  running : Option (Request × RoundTripPc)
  todo : List Request
  got : List (Option Response × Option String)
deriving DecidableEq, Repr

/-- A call the test body makes on the transport. -/
inductive DriverOp (P : Type) where
  | ReceiveRequest
  | Respond (response : Option Response) (err : Option String)
  | ExpectRequest (method pathAndQuery : String)
  | RespondWith (responseObject : Option P)
  | Close
  | GetPendingMessageCount

/-- Program point of the driver inside the call it is running. -/
inductive DriverPc (P : Type) where
  | ReceiveRequest (pc : ReceiveRequestPc)
  | Respond (response : Option Response) (err : Option String) (pc : RespondPc)
  | ExpectRequest (method pathAndQuery : String) (pc : ExpectRequestPc)
  | RespondWith (responseObject : Option P) (pc : RespondWithPc)
  | Close (pc : ClosePc)
  | GetPendingMessageCount

/-- What a completed driver call returned. -/
inductive DriverRet where
  | ReceiveRequest (request : Option Request) (ok : Bool)
  | Respond
  | ExpectRequest (w : RequestWrapper)
  | RespondWith
  | Close
  | GetPendingMessageCount (n : Int)
deriving DecidableEq, Repr

/-- The driver goroutine (the test body): the calls still to make, the call in
progress, the `*testing.T`, the handle last returned by `ExpectRequest` (the
receiver of a following `RespondWith`) and the values returned so far. -/
structure Driver (P : Type) where
  running : Option (DriverPc P)
  script : List (DriverOp P)
  t : T
  wrapper : Option RequestWrapper
  log : List DriverRet

/-- The action of the driver at its program point: the action of the method
it is in. -/
def driverAction {P : Type} (jsonMarshal : P → Except String (List UInt8))
    (m : ServerPtr) (t : T) : DriverPc P → Action (DriverPc P) (T × DriverRet)
  | .ReceiveRequest pc =>
    (ReceiveRequest pc).mapk fun
      | .goto pc2 => .goto (.ReceiveRequest pc2)
      | .ret (request, ok) => .ret (t, .ReceiveRequest request ok)
  | .Respond response err pc =>
    (Respond response err pc).mapk fun
      | .goto pc2 => .goto (.Respond response err pc2)
      | .ret () => .ret (t, .Respond)
  | .ExpectRequest method pathAndQuery pc =>
    (ExpectRequest m t method pathAndQuery pc).mapk fun
      | .goto pc2 => .goto (.ExpectRequest method pathAndQuery pc2)
      | .ret (t2, w) => .ret (t2, .ExpectRequest w)
  | .RespondWith responseObject pc =>
    (RespondWith jsonMarshal responseObject pc).mapk fun
      | .goto pc2 => .goto (.RespondWith responseObject pc2)
      | .ret () => .ret (t, .RespondWith)
  | .Close pc =>
    (Close pc).mapk fun
      | .goto pc2 => .goto (.Close pc2)
      | .ret () => .ret (t, .Close)
  | .GetPendingMessageCount =>
    (GetPendingMessageCount ()).mapk fun
      | .goto () => .goto .GetPendingMessageCount
      | .ret n => .ret (t, .GetPendingMessageCount n)

/-- Whole system: one transport at address `self`, the two goroutines, and
the panic that killed the process, if any. -/
structure Sys (P : Type) where
  server : MockHttpServer
  self : ServerPtr
  client : Client
  driver : Driver P
  panicked : Option String

/-- What executing an action does: nothing yet (the thread is parked),
a panic, a step of this thread alone, or a hand-off in which the peer parked
on the matching channel operation moves too. -/
inductive Outcome (Pc R Pc2 R2 : Type) where
  | blocked
  | panic (msg : String)
  | solo (server : MockHttpServer) (k : Next Pc R)
  | joint (server : MockHttpServer) (k : Next Pc R) (kpeer : Next Pc2 R2)

/-- Go semantics of one action against the transport state, `peer` being the
action the other goroutine is about to execute (if it is inside a call).
Unbuffered channels: a send completes only with a receive of the peer and
panics on a closed channel; a receive on a closed channel yields the zero
value at once; operations on a nil channel block for ever; closing a nil or
closed channel panics. -/
def exec {Pc R Pc2 R2 : Type} (m : MockHttpServer) (peer : Option (Action Pc2 R2)) :
    Action Pc R → Outcome Pc R Pc2 R2
  | .addPending d k => .solo { m with pendingMsgCount := addInt32 m.pendingMsgCount d } k
  | .sendRequest r k =>
    match m.Request with
    | .nil => .blocked
    | .closed => .panic "send on closed channel"
    | .made =>
      match peer with
      | some (.recvRequest kp) => .joint m k (kp r)
      | _ => .blocked
  | .recvRequest k =>
    match m.Request with
    | .nil => .blocked
    | .closed => .solo m (k none)
    | .made =>
      match peer with
      | some (.sendRequest r kp) => .joint m (k r) kp
      | _ => .blocked
  | .sendResponse x k =>
    match m.Response with
    | .nil => .blocked
    | .closed => .panic "send on closed channel"
    | .made =>
      match peer with
      | some (.recvResponse kp) => .joint m k (kp x)
      | _ => .blocked
  | .recvResponse k =>
    match m.Response with
    | .nil => .blocked
    | .closed => .solo m (k { response := none, error := none })
    | .made =>
      match peer with
      | some (.sendResponse x kp) => .joint m (k x) kp
      | _ => .blocked
  | .storeClosed v k => .solo { m with Closed := v } k
  | .loadClosed k => .solo m (k m.Closed)
  | .closeRequest k =>
    match m.Request with
    | .nil => .panic "close of nil channel"
    | .closed => .panic "close of closed channel"
    | .made => .solo { m with Request := .closed } k
  | .closeResponse k =>
    match m.Response with
    | .nil => .panic "close of nil channel"
    | .closed => .panic "close of closed channel"
    | .made => .solo { m with Response := .closed } k
  | .loadPending k => .solo m (k m.pendingMsgCount)
  | .tau k => .solo m k
  | .panic msg => .panic msg

/-- The client after a statement of the `RoundTrip` call on `r`: still inside
it, or returned with the result appended to `got`. -/
def Client.continue (c : Client) (r : Request) :
    Next RoundTripPc (Option Response × Option String) → Client
  | .goto pc => { c with running := some (r, pc) }
  | .ret v => { c with running := none, got := c.got ++ [v] }

/-- The driver after a statement of its current call: still inside it, or
returned, with the value logged, the `*testing.T` updated and the handle of an
`ExpectRequest` remembered. -/
def Driver.continue {P : Type} (d : Driver P) : Next (DriverPc P) (T × DriverRet) → Driver P
  | .goto pc => { d with running := some pc }
  | .ret (t, v) =>
    { d with
      running := none
      t := t
      log := d.log ++ [v]
      wrapper := match v with
        | .ExpectRequest w => some w
        | _ => d.wrapper }

/-- The action the client is about to execute, when it is inside a call. -/
def Client.action (c : Client) :
    Option (Action RoundTripPc (Option Response × Option String)) :=
  c.running.map fun (r, pc) => RoundTrip r pc

/-- The action the driver is about to execute, when it is inside a call. -/
def Driver.action {P : Type} (jsonMarshal : P → Except String (List UInt8))
    (m : ServerPtr) (d : Driver P) : Option (Action (DriverPc P) (T × DriverRet)) :=
  d.running.map (driverAction jsonMarshal m d.t)

/-- First program point of a driver call.  `RespondWith` is a method of the
handle last returned by `ExpectRequest`, and runs `Respond` on the handle's
`Server`; a missing handle or a `Server` that is not this transport is a nil
dereference. -/
def DriverOp.entry {P : Type} (self : ServerPtr) (wrapper : Option RequestWrapper) :
    DriverOp P → Except String (DriverPc P)
  | .ReceiveRequest => .ok (.ReceiveRequest .l96)
  | .Respond response err => .ok (.Respond response err .l103)
  | .ExpectRequest method pathAndQuery => .ok (.ExpectRequest method pathAndQuery (.l115 .l96))
  | .RespondWith responseObject =>
    match wrapper with
    | none => .error "invalid memory address or nil pointer dereference"
    | some w =>
      if w.Server = self then .ok (.RespondWith responseObject .l139)
      else .error "invalid memory address or nil pointer dereference"
  | .Close => .ok (.Close .l86)
  | .GetPendingMessageCount => .ok .GetPendingMessageCount

/-- The two goroutines. -/
inductive Actor where
  | client
  | driver
deriving DecidableEq, Repr

/-- One scheduling step of the client: start the next call, or execute the
statement it stands on.  `none` when it cannot move. -/
def stepClient {P : Type} (jsonMarshal : P → Except String (List UInt8)) (s : Sys P) :
    Option (Sys P) :=
  match s.client.running with
  | none =>
    match s.client.todo with
    | [] => none
    | r :: rest => some { s with client := { s.client with running := some (r, .l67), todo := rest } }
  | some (r, pc) =>
    match exec s.server (s.driver.action jsonMarshal s.self) (RoundTrip r pc) with
    | .blocked => none
    | .panic msg => some { s with panicked := some msg }
    | .solo server k => some { s with server := server, client := s.client.continue r k }
    | .joint server k kpeer =>
      some { s with
        server := server
        client := s.client.continue r k
        driver := s.driver.continue kpeer }

/-- One scheduling step of the driver: start the next call of the script, or
execute the statement it stands on.  `none` when it cannot move. -/
def stepDriver {P : Type} (jsonMarshal : P → Except String (List UInt8)) (s : Sys P) :
    Option (Sys P) :=
  match s.driver.running with
  | none =>
    match s.driver.script with
    | [] => none
    | op :: rest =>
      match op.entry s.self s.driver.wrapper with
      | .error msg => some { s with panicked := some msg }
      | .ok pc => some { s with driver := { s.driver with running := some pc, script := rest } }
  | some pc =>
    match exec s.server s.client.action (driverAction jsonMarshal s.self s.driver.t pc) with
    | .blocked => none
    | .panic msg => some { s with panicked := some msg }
    | .solo server k => some { s with server := server, driver := s.driver.continue k }
    | .joint server k kpeer =>
      match s.client.running with
      | none => none
      | some (r, _) =>
        some { s with
          server := server
          driver := s.driver.continue k
          client := s.client.continue r kpeer }

/-- One step of the system under the scheduler's choice.  A panic in either
goroutine kills the process: no step follows it. -/
def step {P : Type} (jsonMarshal : P → Except String (List UInt8)) (a : Actor) (s : Sys P) :
    Option (Sys P) :=
  match s.panicked with
  | some _ => none
  | none =>
    match a with
    | .client => stepClient jsonMarshal s
    | .driver => stepDriver jsonMarshal s

/-- Runs a schedule; `none` when the schedule picks a goroutine that cannot
move. -/
def run {P : Type} (jsonMarshal : P → Except String (List UInt8)) :
    List Actor → Sys P → Option (Sys P)
  | [], s => some s
  | a :: rest, s =>
    match step jsonMarshal a s with
    | none => none
    | some s2 => run jsonMarshal rest s2

/-- A test: a fresh transport, the client with its requests to issue, the
driver with its script. -/
def initial {P : Type} (self : ServerPtr) (reqs : List Request) (script : List (DriverOp P)) :
    Sys P :=
  { server := NewMockHttpServer
    self := self
    client := { running := none, todo := reqs, got := [] }
    driver := { running := none, script := script, t := { failures := [] },
                wrapper := none, log := [] }
    panicked := none }

/-! ## `pkg/cmd/account/helper/helper.go` -/

/-- The fields of `environments.Environment` the source reads. -/
structure Environment where
  ID : String
  Name : String
deriving DecidableEq, Repr

/-- Inner loop of `ResolveEnvironmentNames` (source lines 27 to 32) over
`allMatches`: the `ID` of the first match whose `Name` passes
`strings.EqualFold(envName, match.Name)`, or `none` when the loop falls
through. -/
def ResolveEnvironmentNames.firstMatch (EqualFold : String → String → Bool)
    (envName : String) : List Environment → Option String
  | [] => none
  | m :: rest =>
    if EqualFold envName m.Name then some m.ID
    else ResolveEnvironmentNames.firstMatch EqualFold envName rest

/-- Outer loop of `ResolveEnvironmentNames` (source lines 16 to 34) over the
names still to resolve, `envIds` being the slice built so far.  `Get` is
`octopus.Environments.Get` with the query `Name: envName`, `GetAllPages` is
`matches.GetAllPages`; an error of either is returned with a nil slice. -/
def ResolveEnvironmentNames.loop {Page : Type} (EqualFold : String → String → Bool)
    (Get : String → Except String Page)
    (GetAllPages : Page → Except String (List Environment)) :
    List String → List String → Option (List String) × Option String
  | [], envIds => (some envIds, none)
  | envName :: rest, envIds =>
    match Get envName with
    | .error err => (none, some err)
    | .ok doc =>
      match GetAllPages doc with
      | .error err => (none, some err)
      | .ok allMatches =>
        match ResolveEnvironmentNames.firstMatch EqualFold envName allMatches with
        | some id =>
          ResolveEnvironmentNames.loop EqualFold Get GetAllPages rest (envIds ++ [id])
        | none =>
          ResolveEnvironmentNames.loop EqualFold Get GetAllPages rest (envIds ++ [envName])

/-- Source `ResolveEnvironmentNames(envs, octopus)`.  `EqualFold` is
`strings.EqualFold` of the Go standard library; the server is the pair of
calls `Get` and `GetAllPages`. -/
def ResolveEnvironmentNames {Page : Type} (EqualFold : String → String → Bool)
    (Get : String → Except String Page)
    (GetAllPages : Page → Except String (List Environment))
    (envs : List String) : Option (List String) × Option String :=
  ResolveEnvironmentNames.loop EqualFold Get GetAllPages envs []

/-- Folding of ASCII letters, on which `strings.EqualFold` agrees with
comparing the lower-cased strings. -/
def asciiEqualFold (s t : String) : Bool :=
  s.toList.map Char.toLower = t.toList.map Char.toLower

/-! ## `pkg/question/selectors/projects.go` -/

/-- The fields of `projects.Project` the source reads. -/
structure Project where
  ID : String
  Name : String
deriving DecidableEq, Repr

/-- What `octopus.Projects.Get` or `GetNextPage` returns: an error, a nil page
without error (no more pages), or a page with its items and with what asking
for the page after it returns. -/
inductive PageFetch where
  | failed (err : String)
  | noPage
  | page (Items : List Project) (next : PageFetch)
deriving DecidableEq, Repr

/-- Inner loop of `FindProject` (source lines 29 to 33) over `Items`. -/
def FindProject.scan (EqualFold : String → String → Bool) (projectName : String) :
    List Project → Option Project
  | [] => none
  | c :: rest =>
    if EqualFold c.Name projectName then some c
    else FindProject.scan EqualFold projectName rest

/-- Source `FindProject(octopus, projectName)`, `fetch` being the result of
the fetch of the first page.  The error check after a fetch (lines 25 and 35),
the loop condition (line 28) and the final error (line 40) are the same after
the first fetch and after every `GetNextPage`. -/
def FindProject (EqualFold : String → String → Bool) (projectName : String) :
    PageFetch → Option Project × Option String
  | .failed err => (none, some err)
  | .noPage => (none, some ("no project found with name of " ++ projectName))
  | .page Items next =>
    if Items.length > 0 then
      match FindProject.scan EqualFold projectName Items with
      | some c => (some c, none)
      | none => FindProject EqualFold projectName next
    else (none, some ("no project found with name of " ++ projectName))

/-! ## `pkg/executor/account.go` -/

/-- Go struct `core.SensitiveValue`. -/
structure SensitiveValue where
  HasValue : Bool
  NewValue : Option String
deriving DecidableEq, Repr

/-- Dynamic content of the field `Options any`: a
`TaskOptionsCreateAccountUsernamePassword` value, a
`TaskOptionsCreateAccountToken` value, or anything else (nil included).  The
`Password` and `Token` fields are pointers, nil being `none`. -/
inductive AccountOptions where
  | UsernamePassword (Username : String) (Password : Option SensitiveValue)
  | Token (Token : Option SensitiveValue)
  | other
deriving DecidableEq, Repr

/-- Go struct `TaskOptionsCreateAccount`; `Type_` is its field `Type`. -/
structure TaskOptionsCreateAccount where
  Type_ : String
  Name : String
  Description : String
  EnvironmentIds : List String
  Options : AccountOptions
deriving DecidableEq, Repr

/-- Dynamic content of the parameter `input any`: a
`*TaskOptionsCreateAccount` (possibly a nil pointer of that type) or anything
else. -/
inductive TaskInput where
  | CreateAccount (params : Option TaskOptionsCreateAccount)
  | other
deriving DecidableEq, Repr

/-- The fields of an `accounts.IAccount` the source sets. -/
structure Account where
  AccountType : String
  Name : String
  Username : String
  Password : Option SensitiveValue
  Token : Option SensitiveValue
  Description : String
  EnvironmentIDs : List String
deriving DecidableEq, Repr

/-- How a call of `accountCreate` ends, with the accounts handed to
`octopus.Accounts.Add` on the way, in order. -/
inductive CreateOutcome where
  | returned (err : Option String) (added : List Account)
  | panicked (msg : String) (added : List Account)
deriving DecidableEq, Repr

/-- Source constant `AccountTypeUsernamePassword`. -/
def AccountTypeUsernamePassword : String := "Username/Password"

/-- Source constant `AccountTypeToken`. -/
def AccountTypeToken : String := "Token"

/-- Lines 97 to 106 of `accountCreate`, common to all account types. -/
def accountCreate.common (Add : Account → Option String) (params : TaskOptionsCreateAccount)
    (account : Account) : CreateOutcome :=
  let account := if params.Description ≠ "" then
    { account with Description := params.Description } else account
  let account := if params.EnvironmentIds.length > 0 then
    { account with EnvironmentIDs := params.EnvironmentIds } else account
  .returned (Add account) [account]

/-- Source `accountCreate(octopus, _, input)`.  The SDK constructors
`accounts.NewUsernamePasswordAccount` and `accounts.NewTokenAccount` and the
call `octopus.Accounts.Add` (of which only the error is kept) are parameters.
Reading a field through a nil pointer panics. -/
def accountCreate (NewUsernamePasswordAccount : String → Except String Account)
    (NewTokenAccount : String → Option SensitiveValue → Except String Account)
    (Add : Account → Option String) : TaskInput → CreateOutcome
  | .other => .returned (some "invalid input type; expecting TaskOptionsCreateAccount") []
  | .CreateAccount none => .panicked "invalid memory address or nil pointer dereference" []
  | .CreateAccount (some params) =>
    let accountName := params.Name
    if params.Name = "" then .returned (some "must specify account name") []
    else if params.Type_ = AccountTypeUsernamePassword then
      match params.Options with
      | .UsernamePassword Username Password =>
        match NewUsernamePasswordAccount accountName with
        | .error err => .returned (some err) []
        | .ok p =>
          if Username = "" then .returned (some "must specify username") []
          else
            let p := { p with Username := Username }
            match Password with
            | none => .panicked "invalid memory address or nil pointer dereference" []
            | some pw =>
              if !pw.HasValue then .returned (some "must specify password") []
              else accountCreate.common Add params { p with Password := some pw }
      | _ => .returned (some "options must be TaskInputCreateAccountUsernamePassword") []
    else if params.Type_ = AccountTypeToken then
      match params.Options with
      | .Token Token =>
        match Token with
        | none => .panicked "invalid memory address or nil pointer dereference" []
        | some tk =>
          if !tk.HasValue then .returned (some "must specify token") []
          else
            match NewTokenAccount accountName (some tk) with
            | .error err => .returned (some err) []
            | .ok p => accountCreate.common Add params p
      | _ => .returned (some "options must be TaskInputCreateAccountUsernamePassword") []
    else .returned (some ("unhandled account type " ++ params.Type_)) []

/-! ## Reference definitions and sample inputs used by the statements -/

/-- The projects `FindProject` can see, in page order then item order: the
items of the pages that come before the first failed fetch, nil page or empty
page. -/
def PageFetch.visibleProjects : PageFetch → List Project
  | .failed _ => []
  | .noPage => []
  | .page Items next => if Items.length > 0 then Items ++ next.visibleProjects else []

/-- The fetch error that ends the walk over the pages, if the walk ends on a
failed fetch rather than on a nil or empty page. -/
def PageFetch.stoppingError : PageFetch → Option String
  | .failed err => some err
  | .noPage => none
  | .page Items next => if Items.length > 0 then next.stoppingError else none

/-- A server holding one environment, named in upper case; every query
returns it in a single page. -/
def sampleGet (_ : String) : Except String (List Environment) :=
  .ok [{ ID := "Environments-1", Name := "DEV" }]

/-- Reading all pages of a one-page result gives its items. -/
def sampleGetAllPages (doc : List Environment) : Except String (List Environment) :=
  .ok doc

/-- A server whose lookup of the name `down` fails and which knows no
environment under any other name. -/
def sampleFailingGet (envName : String) : Except String (List Environment) :=
  if envName = "down" then .error "connection refused" else .ok []

/-- Two Go values handed to `RespondWith`: the struct with the single field
`Name` set to `foo`, which `json.Marshal` encodes as the 14 bytes of the text
`\x7b"Name":"foo"\x7d`, and a channel, for which `json.Marshal` returns an
`UnsupportedTypeError` (channels cannot be encoded in JSON). -/
inductive SamplePayload where
  | nameFoo
  | channel
deriving DecidableEq, Repr

/-- Behaviour of `json.Marshal` on the two sample payloads. -/
def sampleMarshal : SamplePayload → Except String (List UInt8)
  | .nameFoo => .ok [123, 34, 78, 97, 109, 101, 34, 58, 34, 102, 111, 111, 34, 125]
  | .channel => .error "json: unsupported type: chan int"

/-- A request for the path `/api/spaces`. -/
def sampleRequest : Request :=
  { Method := "GET", Path := "/api/spaces", RawQuery := "" }

/-- An SDK constructor that accepts every name. -/
def sampleNewUsernamePasswordAccount (name : String) : Except String Account :=
  .ok { AccountType := "UsernamePassword", Name := name, Username := "", Password := none,
        Token := none, Description := "", EnvironmentIDs := [] }

/-- The entry `ResolveEnvironmentNames` produces for one name, given the
environments its lookup returned: the `ID` of the first one whose name passes
`strings.EqualFold` against the input name, else the input name itself. -/
def resolvedEntry (EqualFold : String → String → Bool) (envName : String)
    (found : List Environment) : String :=
  match found.find? (fun e => EqualFold envName e.Name) with
  | some e => e.ID
  | none => envName

/-- A transport state of a running test: made channels, not closed. -/
def openServer (n : Int) : MockHttpServer :=
  { Request := .made, Response := .made, pendingMsgCount := n, Closed := false }


/-! ## Tests made of exchanges, and the invariant of their runs -/

/-- One exchange of a test: the client issues `req` through `RoundTrip`; the
driver either pulls it with `ReceiveRequest` and answers with
`Respond(response, err)`, or pulls it with `ExpectRequest(method,
pathAndQuery)` and answers with `RespondWith(responseObject)` on the handle it
got, `responseObject` not nil. -/
inductive Exchange (P : Type) where
  | plain (req : Request) (response : Option Response) (err : Option String)
  | fluent (req : Request) (method pathAndQuery : String) (responseObject : P)

/-- The request the client issues in the exchange. -/
def Exchange.req {P : Type} : Exchange P → Request
  | .plain req _ _ => req
  | .fluent req _ _ _ => req

/-- The driver's first call of the exchange. -/
def Exchange.pullOp {P : Type} : Exchange P → DriverOp P
  | .plain _ _ _ => .ReceiveRequest
  | .fluent _ method pathAndQuery _ => .ExpectRequest method pathAndQuery

/-- The driver's second call of the exchange. -/
def Exchange.pushOp {P : Type} : Exchange P → DriverOp P
  | .plain _ response err => .Respond response err
  | .fluent _ _ _ responseObject => .RespondWith (some responseObject)

/-- The envelope the driver's second call sends. -/
def Exchange.envelope {P : Type} (jsonMarshal : P → Except String (List UInt8)) :
    Exchange P → responseOrError
  | .plain _ response err => { response := response, error := err }
  | .fluent _ _ _ responseObject =>
    { response := some (okResponse (marshalBody jsonMarshal responseObject)), error := none }

/-- What `RoundTrip` returns when it receives the envelope of the exchange. -/
def Exchange.result {P : Type} (jsonMarshal : P → Except String (List UInt8))
    (e : Exchange P) : Option Response × Option String :=
  ((e.envelope jsonMarshal).response, (e.envelope jsonMarshal).error)

/-- What the driver's first call returns when it receives the request of the
exchange from the open transport at `self`. -/
def Exchange.pulled {P : Type} (self : ServerPtr) : Exchange P → DriverRet
  | .plain req _ _ => .ReceiveRequest (some req) true
  | .fluent req _ _ _ => .ExpectRequest { Request := some req, Server := self }

/-- What the driver's second call returns. -/
def Exchange.pushed {P : Type} : Exchange P → DriverRet
  | .plain _ _ _ => .Respond
  | .fluent _ _ _ _ => .RespondWith

/-- The driver's script for a list of exchanges: the two calls of each, in
order. -/
def opsOf {P : Type} : List (Exchange P) → List (DriverOp P)
  | [] => []
  | e :: rest => e.pullOp :: e.pushOp :: opsOf rest

/-- The values the driver's calls return when every request and response is
delivered in order. -/
def retsOf {P : Type} (self : ServerPtr) : List (Exchange P) → List DriverRet
  | [] => []
  | e :: rest => e.pulled self :: e.pushed :: retsOf self rest

/-- The test in which the client issues the requests of the exchanges one at
a time and the driver makes the two calls of each exchange in turn, on a
fresh transport at address `self`. -/
def exchangeTest {P : Type} (self : ServerPtr) (exs : List (Exchange P)) : Sys P :=
  initial self (exs.map Exchange.req) (opsOf exs)

/-- The driver's program point at `pc` inside the first call of the exchange. -/
def Exchange.pullPc {P : Type} (pc : ReceiveRequestPc) : Exchange P → DriverPc P
  | .plain _ _ _ => .ReceiveRequest pc
  | .fluent _ method pathAndQuery _ => .ExpectRequest method pathAndQuery (.l115 pc)

/-- The driver's program point at `pc` of `Respond` inside the second call of
the exchange. -/
def Exchange.pushPc {P : Type} (pc : RespondPc) : Exchange P → DriverPc P
  | .plain _ response err => .Respond response err pc
  | .fluent _ _ _ responseObject => .RespondWith (some responseObject) (.l149 pc)

/-- Contribution of the client to the counter: 1 between an increment and the
decrement that follows it. -/
def pendC (c : Client) : Int :=
  match c.running with
  | some (_, .l68) => 1
  | some (_, .l69) => 1
  | some (_, .l73) => 1
  | some (_, .l74 _) => 1
  | _ => 0

/-- Contribution of the driver to the counter. -/
def pendD {P : Type} (d : Driver P) : Int :=
  match d.running with
  | some (.ReceiveRequest .l97) => 1
  | some (.ReceiveRequest (.l98 _)) => 1
  | some (.ExpectRequest _ _ (.l115 .l97)) => 1
  | some (.ExpectRequest _ _ (.l115 (.l98 _))) => 1
  | some (.Respond _ _ .l108) => 1
  | some (.Respond _ _ .l109) => 1
  | some (.RespondWith _ (.l149 .l108)) => 1
  | some (.RespondWith _ (.l149 .l109)) => 1
  | _ => 0

/-- Client states after an even number of hand-offs: the exchanges `done` have
had both hand-offs, those of `rest` none.  The client is finishing the last
exchange of `done`, or is between calls, or is heading for the hand-off of the
first request of `rest`. -/
inductive ClientEven {P : Type} (jsonMarshal : P → Except String (List UInt8))
    (done rest : List (Exchange P)) : Client → Prop
  | l74 (done0 : List (Exchange P)) (e : Exchange P) : done = done0 ++ [e] →
    ClientEven jsonMarshal done rest
      { running := some (e.req, .l74 (e.envelope jsonMarshal)),
        todo := rest.map Exchange.req, got := done0.map (Exchange.result jsonMarshal) }
  | idle :
    ClientEven jsonMarshal done rest
      { running := none, todo := rest.map Exchange.req,
        got := done.map (Exchange.result jsonMarshal) }
  | l67 (e : Exchange P) (rest2 : List (Exchange P)) : rest = e :: rest2 →
    ClientEven jsonMarshal done rest
      { running := some (e.req, .l67), todo := rest2.map Exchange.req,
        got := done.map (Exchange.result jsonMarshal) }
  | l68 (e : Exchange P) (rest2 : List (Exchange P)) : rest = e :: rest2 →
    ClientEven jsonMarshal done rest
      { running := some (e.req, .l68), todo := rest2.map Exchange.req,
        got := done.map (Exchange.result jsonMarshal) }

/-- Client states after an odd number of hand-offs: the request of `e` has
been handed off, its response not yet. -/
inductive ClientOdd {P : Type} (jsonMarshal : P → Except String (List UInt8))
    (done : List (Exchange P)) (e : Exchange P) (rest : List (Exchange P)) : Client → Prop
  | l69 :
    ClientOdd jsonMarshal done e rest
      { running := some (e.req, .l69), todo := rest.map Exchange.req,
        got := done.map (Exchange.result jsonMarshal) }
  | l72 :
    ClientOdd jsonMarshal done e rest
      { running := some (e.req, .l72), todo := rest.map Exchange.req,
        got := done.map (Exchange.result jsonMarshal) }
  | l73 :
    ClientOdd jsonMarshal done e rest
      { running := some (e.req, .l73), todo := rest.map Exchange.req,
        got := done.map (Exchange.result jsonMarshal) }

/-- Driver states after an even number of hand-offs. -/
inductive DriverEven {P : Type} (self : ServerPtr) (done rest : List (Exchange P)) :
    Driver P → Prop
  | l109 (done0 : List (Exchange P)) (e : Exchange P) (t : T) (w : Option RequestWrapper) :
    done = done0 ++ [e] →
    DriverEven self done rest
      { running := some (e.pushPc .l109), script := opsOf rest, t := t, wrapper := w,
        log := retsOf self done0 ++ [e.pulled self] }
  | idle (t : T) (w : Option RequestWrapper) :
    DriverEven self done rest
      { running := none, script := opsOf rest, t := t, wrapper := w, log := retsOf self done }
  | l96 (e : Exchange P) (rest2 : List (Exchange P)) (t : T) (w : Option RequestWrapper) :
    rest = e :: rest2 →
    DriverEven self done rest
      { running := some (e.pullPc .l96), script := e.pushOp :: opsOf rest2, t := t,
        wrapper := w, log := retsOf self done }
  | l97 (e : Exchange P) (rest2 : List (Exchange P)) (t : T) (w : Option RequestWrapper) :
    rest = e :: rest2 →
    DriverEven self done rest
      { running := some (e.pullPc .l97), script := e.pushOp :: opsOf rest2, t := t,
        wrapper := w, log := retsOf self done }

/-- Driver states after an odd number of hand-offs: the driver holds the
request of `e` and has not yet handed off its response. -/
inductive DriverOdd {P : Type} (self : ServerPtr) (done : List (Exchange P)) (e : Exchange P)
    (rest : List (Exchange P)) : Driver P → Prop
  | l98 (t : T) (w : Option RequestWrapper) :
    DriverOdd self done e rest
      { running := some (e.pullPc (.l98 (some e.req))), script := e.pushOp :: opsOf rest,
        t := t, wrapper := w, log := retsOf self done }
  | l99 (t : T) (w : Option RequestWrapper) :
    DriverOdd self done e rest
      { running := some (e.pullPc (.l99 (some e.req))), script := e.pushOp :: opsOf rest,
        t := t, wrapper := w, log := retsOf self done }
  | l116 (req : Request) (method pathAndQuery : String) (responseObject : P) (t : T)
      (w : Option RequestWrapper) :
    e = .fluent req method pathAndQuery responseObject →
    DriverOdd self done e rest
      { running := some (.ExpectRequest method pathAndQuery (.l116 (some req) true)),
        script := e.pushOp :: opsOf rest, t := t, wrapper := w, log := retsOf self done }
  | between (t : T) (w : Option RequestWrapper) :
    (∀ req method pathAndQuery responseObject,
      e = .fluent req method pathAndQuery responseObject →
      w = some { Request := some req, Server := self }) →
    DriverOdd self done e rest
      { running := none, script := e.pushOp :: opsOf rest, t := t, wrapper := w,
        log := retsOf self done ++ [e.pulled self] }
  | l139 (req : Request) (method pathAndQuery : String) (responseObject : P) (t : T)
      (w : Option RequestWrapper) :
    e = .fluent req method pathAndQuery responseObject →
    DriverOdd self done e rest
      { running := some (.RespondWith (some responseObject) .l139),
        script := opsOf rest, t := t, wrapper := w,
        log := retsOf self done ++ [e.pulled self] }
  | l103 (t : T) (w : Option RequestWrapper) :
    DriverOdd self done e rest
      { running := some (e.pushPc .l103), script := opsOf rest, t := t, wrapper := w,
        log := retsOf self done ++ [e.pulled self] }
  | l107 (t : T) (w : Option RequestWrapper) :
    DriverOdd self done e rest
      { running := some (e.pushPc .l107), script := opsOf rest, t := t, wrapper := w,
        log := retsOf self done ++ [e.pulled self] }
  | l108 (t : T) (w : Option RequestWrapper) :
    DriverOdd self done e rest
      { running := some (e.pushPc .l108), script := opsOf rest, t := t, wrapper := w,
        log := retsOf self done ++ [e.pulled self] }

/-- Invariant of the runs of `exchangeTest self exs`: the transport is open
and not panicked, the counter is the sum of the two contributions, and both
goroutines have taken part in the same number of hand-offs. -/
inductive Inv {P : Type} (jsonMarshal : P → Except String (List UInt8)) (self : ServerPtr)
    (exs : List (Exchange P)) : Sys P → Prop
  | even (done rest : List (Exchange P)) (c : Client) (d : Driver P) :
    exs = done ++ rest → ClientEven jsonMarshal done rest c → DriverEven self done rest d →
    Inv jsonMarshal self exs
      { server := openServer (pendC c + pendD d), self := self, client := c, driver := d,
        panicked := none }
  | odd (done : List (Exchange P)) (e : Exchange P) (rest : List (Exchange P)) (c : Client)
      (d : Driver P) :
    exs = done ++ e :: rest → ClientOdd jsonMarshal done e rest c →
    DriverOdd self done e rest d →
    Inv jsonMarshal self exs
      { server := openServer (pendC c + pendD d), self := self, client := c, driver := d,
        panicked := none }


/-! ## A bound on the length of runs -/

/-- The continuations an action can take. -/
def Action.HasCont {Pc R : Type} : Action Pc R → Next Pc R → Prop
  | .addPending _ k0, k => k = k0
  | .sendRequest _ k0, k => k = k0
  | .recvRequest f, k => ∃ r, k = f r
  | .sendResponse _ k0, k => k = k0
  | .recvResponse f, k => ∃ x, k = f x
  | .storeClosed _ k0, k => k = k0
  | .loadClosed f, k => ∃ b, k = f b
  | .closeRequest k0, k => k = k0
  | .closeResponse k0, k => k = k0
  | .loadPending f, k => ∃ n, k = f n
  | .tau k0, k => k = k0
  | .panic _, _ => False

/-- Statements left in a `RoundTrip` call at a program point. -/
def remRoundTrip : RoundTripPc → Nat
  | .l67 => 6
  | .l68 => 5
  | .l69 => 4
  | .l72 => 3
  | .l73 => 2
  | .l74 _ => 1

/-- Steps the client can still take: seven for each call not yet started (the
call and its six statements) and the statements left in the running call. -/
def remC (c : Client) : Nat :=
  7 * c.todo.length +
    match c.running with
    | none => 0
    | some (_, pc) => remRoundTrip pc

/-- Statements left in a `ReceiveRequest` call at a program point. -/
def remReceiveRequest : ReceiveRequestPc → Nat
  | .l96 => 4
  | .l97 => 3
  | .l98 _ => 2
  | .l99 _ => 1

/-- Statements left in a `Respond` call at a program point. -/
def remRespond : RespondPc → Nat
  | .l103 => 4
  | .l107 => 3
  | .l108 => 2
  | .l109 => 1

/-- Statements left in the running driver call, at most. -/
def remPc {P : Type} : DriverPc P → Nat
  | .ReceiveRequest pc => remReceiveRequest pc
  | .Respond _ _ pc => remRespond pc
  | .ExpectRequest _ _ (.l115 pc) => remReceiveRequest pc + 1
  | .ExpectRequest _ _ (.l116 _ _) => 1
  | .RespondWith _ .l139 => 5
  | .RespondWith _ (.l149 pc) => remRespond pc
  | .Close .l86 => 3
  | .Close .l87 => 2
  | .Close .l88 => 1
  | .GetPendingMessageCount => 1

/-- Steps a driver call takes, at most: its statements and the call itself. -/
def opWeight {P : Type} : DriverOp P → Nat
  | .ReceiveRequest => 5
  | .Respond _ _ => 5
  | .ExpectRequest _ _ => 6
  | .RespondWith _ => 6
  | .Close => 4
  | .GetPendingMessageCount => 2

/-- Steps the driver can still take, at most. -/
def remD {P : Type} (d : Driver P) : Nat :=
  (d.script.map opWeight).sum +
    match d.running with
    | none => 0
    | some pc => remPc pc

/-- Steps the system can still take, at most. -/
def fuel {P : Type} (s : Sys P) : Nat :=
  remC s.client + remD s.driver


/-- The value a call of `GetPendingMessageCount` returns in a state of the
system. -/
def Sys.pendingMessageCount {P : Type} (s : Sys P) : Option Int :=
  match @exec Unit Int Unit Unit s.server none (GetPendingMessageCount ()) with
  | .solo _ (.ret n) => some n
  | _ => none

/-- Whether a value was returned by a call that pulls a request
(`ReceiveRequest` or `ExpectRequest`). -/
def DriverRet.isPull : DriverRet → Bool
  | .ReceiveRequest _ _ => true
  | .ExpectRequest _ => true
  | _ => false

/-- The driver is between a pull and the matching push: it is between calls
and the last call that returned pulled a request. -/
def Driver.betweenPullAndPush {P : Type} (d : Driver P) : Prop :=
  d.running = none ∧ ∃ v, d.log.getLast? = some v ∧ v.isPull = true

/-- A test of one exchange driven by `ReceiveRequest` and `Respond`. -/
def samplePlainTest : Sys SamplePayload :=
  exchangeTest 1 [.plain sampleRequest none none]

/-- The state of `samplePlainTest` in which `ReceiveRequest` has returned,
`Respond` has not been called and the client has run line 69. -/
def samplePlainMid : Sys SamplePayload :=
  { server := openServer 0
    self := 1
    client := { running := some (sampleRequest, .l72), todo := [], got := [] }
    driver := { running := none, script := [.Respond none none], t := { failures := [] },
                wrapper := none, log := [.ReceiveRequest (some sampleRequest) true] }
    panicked := none }

/-- The state of `sampleFluentTest` in which every call has returned. -/
def sampleFluentDone : Sys SamplePayload :=
  { server := openServer 0
    self := 1
    client := { running := none, todo := [],
                got := [(some (okResponse
                  [123, 34, 78, 97, 109, 101, 34, 58, 34, 102, 111, 111, 34, 125]), none)] }
    driver := { running := none, script := [], t := { failures := [] },
                wrapper := some { Request := some sampleRequest, Server := 1 },
                log := [.ExpectRequest { Request := some sampleRequest, Server := 1 },
                        .RespondWith] }
    panicked := none }

/-! ## Theorems -/

/-! ### `FindProject` -/

theorem FindProject.scan_eq_find (EqualFold : String → String → Bool) (projectName : String)
    (items : List Project) :
    FindProject.scan EqualFold projectName items =
      items.find? (fun c => EqualFold c.Name projectName) := by
  induction items with
  | nil => rfl
  | cons c rest ih =>
    by_cases h : EqualFold c.Name projectName = true
    · simp [FindProject.scan, h]
    · simp [FindProject.scan, h, ih]

/-- C10. `FindProject` returns, with a nil error, the first project in page
order then item order whose name equals the requested name under
`strings.EqualFold`, among the pages before the first failed fetch, nil page
or empty page; when there is none it returns a nil project with the error of
the failed fetch that ended the walk, unchanged, or else with the error
`no project found with name of <name>`. -/
theorem FindProject_first_match (EqualFold : String → String → Bool) (projectName : String)
    (fetch : PageFetch) :
    FindProject EqualFold projectName fetch =
      match fetch.visibleProjects.find? (fun c => EqualFold c.Name projectName) with
      | some c => (some c, none)
      | none =>
        match fetch.stoppingError with
        | some err => (none, some err)
        | none => (none, some ("no project found with name of " ++ projectName)) := by
  induction fetch with
  | failed err => rfl
  | noPage => rfl
  | page Items next ih =>
    by_cases hlen : Items.length > 0
    · simp only [FindProject, PageFetch.visibleProjects, PageFetch.stoppingError, hlen,
        if_true, FindProject.scan_eq_find, List.find?_append]
      cases hfind : Items.find? (fun c => EqualFold c.Name projectName) with
      | some c => simp
      | none => simpa using ih
    · simp [FindProject, PageFetch.visibleProjects, PageFetch.stoppingError, hlen]

/-! ### `ResolveEnvironmentNames` -/

theorem ResolveEnvironmentNames.firstMatch_eq (EqualFold : String → String → Bool)
    (envName : String) (found : List Environment) :
    ResolveEnvironmentNames.firstMatch EqualFold envName found =
      (found.find? (fun e => EqualFold envName e.Name)).map (fun e => e.ID) := by
  induction found with
  | nil => rfl
  | cons m rest ih =>
    by_cases h : EqualFold envName m.Name = true
    · simp [ResolveEnvironmentNames.firstMatch, h]
    · simp [ResolveEnvironmentNames.firstMatch, h, ih]

theorem ResolveEnvironmentNames.loop_ok {Page : Type} (EqualFold : String → String → Bool)
    (Get : String → Except String Page)
    (GetAllPages : Page → Except String (List Environment))
    (found : String → List Environment) (envs : List String) :
    (∀ n ∈ envs, ∃ doc, Get n = .ok doc ∧ GetAllPages doc = .ok (found n)) →
    ∀ envIds, ResolveEnvironmentNames.loop EqualFold Get GetAllPages envs envIds =
      (some (envIds ++ envs.map (fun n => resolvedEntry EqualFold n (found n))), none) := by
  induction envs with
  | nil => intro _ envIds; simp [ResolveEnvironmentNames.loop]
  | cons n rest ih =>
    intro h envIds
    obtain ⟨doc, hget, hall⟩ := h n (List.mem_cons_self n rest)
    have hrest := ih (fun k hk => h k (List.mem_cons_of_mem n hk))
    simp only [ResolveEnvironmentNames.loop, hget, hall,
      ResolveEnvironmentNames.firstMatch_eq, resolvedEntry]
    cases hfind : (found n).find? (fun e => EqualFold n e.Name) with
    | some e => simp [hrest, resolvedEntry, hfind]
    | none => simp [hrest, resolvedEntry, hfind]

theorem ResolveEnvironmentNames.loop_fail {Page : Type} (EqualFold : String → String → Bool)
    (Get : String → Except String Page)
    (GetAllPages : Page → Except String (List Environment))
    (found : String → List Environment) (before : List String) (n : String)
    (rest : List String) (err : String) :
    (∀ k ∈ before, ∃ doc, Get k = .ok doc ∧ GetAllPages doc = .ok (found k)) →
    (Get n = .error err ∨ ∃ doc, Get n = .ok doc ∧ GetAllPages doc = .error err) →
    ∀ envIds, ResolveEnvironmentNames.loop EqualFold Get GetAllPages (before ++ n :: rest) envIds =
      (none, some err) := by
  induction before with
  | nil =>
    intro _ hfail envIds
    rcases hfail with hget | ⟨doc, hget, hall⟩
    · simp [ResolveEnvironmentNames.loop, hget]
    · simp [ResolveEnvironmentNames.loop, hget, hall]
  | cons k more ih =>
    intro h hfail envIds
    obtain ⟨doc, hget, hall⟩ := h k (List.mem_cons_self k more)
    have hrest := ih (fun j hj => h j (List.mem_cons_of_mem k hj)) hfail
    simp only [List.cons_append, ResolveEnvironmentNames.loop, hget, hall]
    cases ResolveEnvironmentNames.firstMatch EqualFold k (found k) with
    | some id => simp [hrest]
    | none => simp [hrest]

/-- C8, as the code has it.  When every lookup succeeds,
`ResolveEnvironmentNames` returns, with a nil error, one entry per input name
in the same order: the `ID` of the first environment returned by that name's
lookup whose name equals the input name under `strings.EqualFold`
(case-insensitive), or the input name unchanged when there is none.  When the
lookup of some name fails after the lookups before it succeeded, it returns a
nil list and that error. -/
theorem ResolveEnvironmentNames_equalFold {Page : Type} (EqualFold : String → String → Bool)
    (Get : String → Except String Page)
    (GetAllPages : Page → Except String (List Environment))
    (found : String → List Environment) (envs : List String) :
    ((∀ n ∈ envs, ∃ doc, Get n = .ok doc ∧ GetAllPages doc = .ok (found n)) →
      ResolveEnvironmentNames EqualFold Get GetAllPages envs =
        (some (envs.map (fun n => resolvedEntry EqualFold n (found n))), none)) ∧
    (∀ before n rest err, envs = before ++ n :: rest →
      (∀ k ∈ before, ∃ doc, Get k = .ok doc ∧ GetAllPages doc = .ok (found k)) →
      (Get n = .error err ∨ ∃ doc, Get n = .ok doc ∧ GetAllPages doc = .error err) →
      ResolveEnvironmentNames EqualFold Get GetAllPages envs = (none, some err)) := by
  constructor
  · intro h
    simpa [ResolveEnvironmentNames] using
      ResolveEnvironmentNames.loop_ok EqualFold Get GetAllPages found envs h []
  · intro before n rest err henvs h hfail
    subst henvs
    exact ResolveEnvironmentNames.loop_fail EqualFold Get GetAllPages found before n rest err
      h hfail []

/-- Witness of C8: on the sample server the name `dev` resolves to the ID of
the environment `DEV`, and a failing lookup of `down` after `dev` gives a nil
list with the error. -/
theorem ResolveEnvironmentNames_equalFold_witness :
    ResolveEnvironmentNames asciiEqualFold sampleGet sampleGetAllPages ["dev"] =
        (some ["Environments-1"], none) ∧
    ResolveEnvironmentNames asciiEqualFold sampleFailingGet sampleGetAllPages
        ["dev", "down", "test"] = (none, some "connection refused") :=
  ⟨(ResolveEnvironmentNames_equalFold asciiEqualFold sampleGet sampleGetAllPages
      (fun _ => [{ ID := "Environments-1", Name := "DEV" }]) ["dev"]).1
      (fun _ _ => ⟨_, rfl, rfl⟩),
   (ResolveEnvironmentNames_equalFold asciiEqualFold sampleFailingGet sampleGetAllPages
      (fun _ => []) ["dev", "down", "test"]).2 ["dev"] "down" ["test"] "connection refused" rfl
      (by intro k hk; simp at hk; subst hk; exact ⟨[], by simp [sampleFailingGet], rfl⟩)
      (Or.inl (by simp [sampleFailingGet]))⟩

/-- Counterexample to C8 as stated: the lookup of `dev` returns only an
environment named `DEV`, which is not an exact match, yet the entry is that
environment's ID and not the input name. -/
theorem ResolveEnvironmentNames_not_exact :
    ResolveEnvironmentNames asciiEqualFold sampleGet sampleGetAllPages ["dev"] =
        (some ["Environments-1"], none) ∧
    sampleGet "dev" = .ok [{ ID := "Environments-1", Name := "DEV" }] ∧
    (∀ e ∈ [({ ID := "Environments-1", Name := "DEV" } : Environment)], e.Name ≠ "dev") ∧
    ResolveEnvironmentNames asciiEqualFold sampleGet sampleGetAllPages ["dev"] ≠
        (some ["dev"], none) := by
  refine ⟨by decide, rfl, by decide, by decide⟩

/-! ### `accountCreate` -/

/-- C9, the failing inputs.  A `Username/Password` input with a name and a
username whose `Password` pointer is nil does not return an error:
`options.Password.HasValue` on line 69 dereferences the nil pointer and the
call panics, without a call of `Accounts.Add`.  A `Token` input whose `Token`
pointer is nil panics in the same way on line 80. -/
theorem accountCreate_nil_pointer_panics
    (NewUsernamePasswordAccount : String → Except String Account)
    (NewTokenAccount : String → Option SensitiveValue → Except String Account)
    (Add : Account → Option String) :
    accountCreate sampleNewUsernamePasswordAccount NewTokenAccount Add
      (.CreateAccount (some
        { Type_ := "Username/Password", Name := "deploy", Description := "",
          EnvironmentIds := [],
          Options := .UsernamePassword "bob" none })) =
      .panicked "invalid memory address or nil pointer dereference" [] ∧
    accountCreate NewUsernamePasswordAccount NewTokenAccount Add
      (.CreateAccount (some
        { Type_ := "Token", Name := "deploy", Description := "",
          EnvironmentIds := [],
          Options := .Token none })) =
      .panicked "invalid memory address or nil pointer dereference" [] := by
  constructor
  · simp [accountCreate, AccountTypeUsernamePassword, sampleNewUsernamePasswordAccount]
  · simp [accountCreate, AccountTypeUsernamePassword, AccountTypeToken]

/-- Whenever `accountCreate` returns, it has either called `Accounts.Add`
exactly once and returns its error, or not called it and returns a non-nil
error. -/
theorem accountCreate_returned
    (NewUsernamePasswordAccount : String → Except String Account)
    (NewTokenAccount : String → Option SensitiveValue → Except String Account)
    (Add : Account → Option String) (input : TaskInput) (err : Option String)
    (added : List Account) :
    accountCreate NewUsernamePasswordAccount NewTokenAccount Add input = .returned err added →
    (added = [] ∧ err ≠ none) ∨ (∃ a, added = [a] ∧ err = Add a) := by
  intro h
  unfold accountCreate at h
  split at h
  · simp at h; left; simp [← h.1, ← h.2]
  · simp at h
  · simp only [accountCreate.common] at h
    split at h <;> (try split at h) <;> (try split at h) <;> (try split at h) <;>
      (try split at h) <;> (try split at h) <;> (try split at h) <;> (try split at h)
    all_goals first
      | (simp at h; done)
      | (simp at h; left; simp [← h.1, ← h.2]; done)
      | (simp at h; right; exact ⟨_, h.2.symm, h.1.symm⟩)

/-! ### Single calls on the transport -/

theorem assertEqual_failures (t : T) (a b : String) :
    (assertEqual t a b).failures =
      if a = b then t.failures else t.failures ++ [Failure.NotEqual a b] := by
  unfold assertEqual
  split <;> rfl

theorem assertEqual_twice_clean (t : T) (a b c d : String) :
    (assertEqual (assertEqual t a b) c d).failures = t.failures ↔ a = b ∧ c = d := by
  rw [assertEqual_failures, assertEqual_failures]
  by_cases h1 : a = b <;> by_cases h2 : c = d <;> simp [h1, h2]

/-- C3. On a transport whose `Closed` flag is true, whatever the state of its
channels, its counter and the client, `Respond` returns in its first step (the
check on line 103): it is never parked, sends nothing, and leaves the
transport state unchanged. -/
theorem Respond_closed_noop {P : Type} (jsonMarshal : P → Except String (List UInt8))
    (requestChan responseChan : Chan) (n : Int) (self : ServerPtr) (client : Client)
    (script : List (DriverOp P)) (t : T) (wrapper : Option RequestWrapper)
    (log : List DriverRet) (response : Option Response) (err : Option String) :
    step jsonMarshal .driver
      { server := { Request := requestChan, Response := responseChan,
                    pendingMsgCount := n, Closed := true }
        self := self
        client := client
        driver := { running := some (.Respond response err .l103), script := script, t := t,
                    wrapper := wrapper, log := log }
        panicked := none } =
    some
      { server := { Request := requestChan, Response := responseChan,
                    pendingMsgCount := n, Closed := true }
        self := self
        client := client
        driver := { running := none, script := script, t := t,
                    wrapper := wrapper, log := log ++ [.Respond] }
        panicked := none } := by
  simp [step, stepDriver, driverAction, Respond, Action.mapk, exec, Driver.continue]

/-- C5. On an open transport on which a client is handing off the request
`r`, `ExpectRequest(method, pathAndQuery)` returns without a panic the handle
holding `r` and this transport; the failures recorded on `t` are unchanged if
and only if `method` equals `r.Method` and `pathAndQuery` equals the path when
the raw query is empty and the path, `?` and the raw query otherwise. -/
theorem ExpectRequest_open {P : Type} (jsonMarshal : P → Except String (List UInt8))
    (responseChan : Chan) (n : Int) (self : ServerPtr) (r : Request) (todo : List Request)
    (got : List (Option Response × Option String))
    (script : List (DriverOp P)) (t : T) (wrapper : Option RequestWrapper)
    (log : List DriverRet) (method pathAndQuery : String) :
    run jsonMarshal [.driver, .driver, .driver, .driver, .driver]
      { server := { Request := .made, Response := responseChan,
                    pendingMsgCount := n, Closed := false }
        self := self
        client := { running := some (r, .l68), todo := todo, got := got }
        driver := { running := some (.ExpectRequest method pathAndQuery (.l115 .l96)),
                    script := script, t := t, wrapper := wrapper, log := log }
        panicked := none } =
    some
      { server := { Request := .made, Response := responseChan,
                    pendingMsgCount := addInt32 (addInt32 n 1) (-1), Closed := false }
        self := self
        client := { running := some (r, .l69), todo := todo, got := got }
        driver := { running := none, script := script,
                    t := assertEqual (assertEqual t method r.Method) pathAndQuery
                      (rPathAndQuery r),
                    wrapper := some { Request := some r, Server := self },
                    log := log ++ [.ExpectRequest { Request := some r, Server := self }] }
        panicked := none } ∧
    ((assertEqual (assertEqual t method r.Method) pathAndQuery (rPathAndQuery r)).failures =
        t.failures ↔
      (method = r.Method ∧
        pathAndQuery = if r.RawQuery = "" then r.Path else r.Path ++ "?" ++ r.RawQuery)) := by
  constructor
  · simp [run, step, stepDriver, driverAction, ExpectRequest, ReceiveRequest, RoundTrip,
      Action.mapk, exec, Driver.continue, Client.continue, Client.action]
  · rw [assertEqual_twice_clean]
    unfold rPathAndQuery
    by_cases h : r.RawQuery = "" <;> simp [h]

/-- C6. On a transport that has been closed (`Closed` set, request channel
closed), `ReceiveRequest` returns the nil request with the flag false, and
`ExpectRequest` records exactly one failure through `t.Errorf`, makes no
`assert.Equal`, does not panic and returns a handle whose `Request` is nil. -/
theorem closed_ReceiveRequest_ExpectRequest {P : Type}
    (jsonMarshal : P → Except String (List UInt8))
    (responseChan : Chan) (n : Int) (self : ServerPtr) (client : Client)
    (script : List (DriverOp P)) (t : T) (wrapper : Option RequestWrapper)
    (log : List DriverRet) (method pathAndQuery : String) :
    run jsonMarshal [.driver, .driver, .driver, .driver]
      { server := { Request := .closed, Response := responseChan,
                    pendingMsgCount := n, Closed := true }
        self := self
        client := client
        driver := { running := some (.ReceiveRequest .l96),
                    script := script, t := t, wrapper := wrapper, log := log }
        panicked := none } =
    some
      { server := { Request := .closed, Response := responseChan,
                    pendingMsgCount := addInt32 (addInt32 n 1) (-1), Closed := true }
        self := self
        client := client
        driver := { running := none, script := script, t := t, wrapper := wrapper,
                    log := log ++ [.ReceiveRequest none false] }
        panicked := none } ∧
    run jsonMarshal [.driver, .driver, .driver, .driver, .driver]
      { server := { Request := .closed, Response := responseChan,
                    pendingMsgCount := n, Closed := true }
        self := self
        client := client
        driver := { running := some (.ExpectRequest method pathAndQuery (.l115 .l96)),
                    script := script, t := t, wrapper := wrapper, log := log }
        panicked := none } =
    some
      { server := { Request := .closed, Response := responseChan,
                    pendingMsgCount := addInt32 (addInt32 n 1) (-1), Closed := true }
        self := self
        client := client
        driver := { running := none, script := script,
                    t := { failures := t.failures ++ [Failure.Errorf
                      ("ExpectRequest " ++ method ++ " " ++ pathAndQuery ++
                        " failed; channel closed")] },
                    wrapper := some { Request := none, Server := self },
                    log := log ++ [.ExpectRequest { Request := none, Server := self }] }
        panicked := none } := by
  constructor
  · simp [run, step, stepDriver, driverAction, ReceiveRequest,
      Action.mapk, exec, Driver.continue]
  · simp [run, step, stepDriver, driverAction, ExpectRequest, ReceiveRequest,
      Action.mapk, exec, Driver.continue, T.Errorf]

/-- C4, as the code has it.  For a payload that `json.Marshal` serializes to
`body` without error, `RespondWith` on an open transport hands the client
parked in `RoundTrip` the envelope with a nil error and a response of status
200, body `body` and `ContentLength` the length of `body`, and the client
returns exactly that. -/
theorem RespondWith_marshalled {P : Type} (jsonMarshal : P → Except String (List UInt8))
    (obj : P) (body : List UInt8) (hbody : jsonMarshal obj = .ok body)
    (requestChan : Chan) (n : Int) (self : ServerPtr) (r : Request) (todo : List Request)
    (got : List (Option Response × Option String))
    (script : List (DriverOp P)) (t : T) (wrapper : Option RequestWrapper)
    (log : List DriverRet) :
    run jsonMarshal [.driver, .driver, .driver, .driver, .client]
      { server := { Request := requestChan, Response := .made,
                    pendingMsgCount := n, Closed := false }
        self := self
        client := { running := some (r, .l73), todo := todo, got := got }
        driver := { running := some (.RespondWith (some obj) .l139),
                    script := script, t := t, wrapper := wrapper, log := log }
        panicked := none } =
    some
      { server := { Request := requestChan, Response := .made,
                    pendingMsgCount := addInt32 (addInt32 n 1) (-1), Closed := false }
        self := self
        client := { running := none, todo := todo,
                    got := got ++ [(some { StatusCode := 200, Body := body,
                                           ContentLength := body.length }, none)] }
        driver := { running := some (.RespondWith (some obj) (.l149 .l109)),
                    script := script, t := t, wrapper := wrapper, log := log }
        panicked := none } := by
  simp [run, step, stepDriver, stepClient, driverAction, RespondWith, Respond, RoundTrip,
    Action.mapk, exec, Driver.continue, Client.continue, Client.action, marshalBody,
    okResponse, hbody]

/-- Witness of C4: the payload `\x7b"Name":"foo"\x7d` reaches the client as
a 200 response of 14 bytes. -/
theorem RespondWith_marshalled_witness :
    run sampleMarshal [.driver, .driver, .driver, .driver, .client]
      { server := { Request := .made, Response := .made, pendingMsgCount := 1,
                    Closed := false }
        self := 1
        client := { running := some (sampleRequest, .l73), todo := [], got := [] }
        driver := { running := some (.RespondWith (some .nameFoo) .l139),
                    script := [], t := { failures := [] }, wrapper := none, log := [] }
        panicked := none } =
    some
      { server := { Request := .made, Response := .made,
                    pendingMsgCount := addInt32 (addInt32 1 1) (-1), Closed := false }
        self := 1
        client := { running := none, todo := [],
                    got := [] ++ [(some (Response.mk 200
                      [123, 34, 78, 97, 109, 101, 34, 58, 34, 102, 111, 111, 34, 125]
                      (List.length ([123, 34, 78, 97, 109, 101, 34, 58, 34, 102, 111,
                        111, 34, 125] : List UInt8))), none)] }
        driver := { running := some (.RespondWith (some .nameFoo) (.l149 .l109)),
                    script := [], t := { failures := [] }, wrapper := none, log := [] }
        panicked := none } :=
  RespondWith_marshalled sampleMarshal .nameFoo _ rfl .made 1 1 sampleRequest [] [] [] _ none []

/-- Counterexample to C4 as stated: a channel is a non-nil payload that
`json.Marshal` cannot serialize; `RespondWith` drops the error and the client
receives a 200 response with an empty body and a nil error. -/
theorem RespondWith_unmarshallable :
    sampleMarshal .channel = .error "json: unsupported type: chan int" ∧
    (run sampleMarshal [.driver, .driver, .driver, .driver, .client]
      { server := openServer 1
        self := 1
        client := { running := some (sampleRequest, .l73), todo := [], got := [] }
        driver := { running := some (.RespondWith (some .channel) .l139),
                    script := [], t := { failures := [] }, wrapper := none, log := [] }
        panicked := none }).map (fun s => s.client.got) =
    some [(some { StatusCode := 200, Body := [], ContentLength := 0 }, none)] := by
  constructor
  · rfl
  · decide

/-- C1, as the code has it.  When a client is parked on the response channel
(line 73 of `RoundTrip`) of an open transport and the driver calls `Close`,
the client cannot move before the third statement of `Close` (no schedule
lets it step earlier); once `close(m.Response)` has run, the `RoundTrip` call
returns, and what it returns is the zero envelope: a nil response together
with a nil error. -/
theorem RoundTrip_after_Close {P : Type} (jsonMarshal : P → Except String (List UInt8))
    (n : Int) (closed : Bool) (self : ServerPtr) (r : Request) (todo : List Request)
    (got : List (Option Response × Option String))
    (script : List (DriverOp P)) (t : T) (wrapper : Option RequestWrapper)
    (log : List DriverRet) :
    run jsonMarshal [.client]
      { server := { Request := .made, Response := .made, pendingMsgCount := n,
                    Closed := closed }
        self := self
        client := { running := some (r, .l73), todo := todo, got := got }
        driver := { running := some (.Close .l86),
                    script := script, t := t, wrapper := wrapper, log := log }
        panicked := none } = none ∧
    run jsonMarshal [.driver, .client]
      { server := { Request := .made, Response := .made, pendingMsgCount := n,
                    Closed := closed }
        self := self
        client := { running := some (r, .l73), todo := todo, got := got }
        driver := { running := some (.Close .l86),
                    script := script, t := t, wrapper := wrapper, log := log }
        panicked := none } = none ∧
    run jsonMarshal [.driver, .driver, .client]
      { server := { Request := .made, Response := .made, pendingMsgCount := n,
                    Closed := closed }
        self := self
        client := { running := some (r, .l73), todo := todo, got := got }
        driver := { running := some (.Close .l86),
                    script := script, t := t, wrapper := wrapper, log := log }
        panicked := none } = none ∧
    run jsonMarshal [.driver, .driver, .driver, .client, .client]
      { server := { Request := .made, Response := .made, pendingMsgCount := n,
                    Closed := closed }
        self := self
        client := { running := some (r, .l73), todo := todo, got := got }
        driver := { running := some (.Close .l86),
                    script := script, t := t, wrapper := wrapper, log := log }
        panicked := none } =
    some
      { server := { Request := .closed, Response := .closed,
                    pendingMsgCount := addInt32 n (-1), Closed := true }
        self := self
        client := { running := none, todo := todo, got := got ++ [(none, none)] }
        driver := { running := none, script := script, t := t, wrapper := wrapper,
                    log := log ++ [.Close] }
        panicked := none } := by
  refine ⟨?_, ?_, ?_, ?_⟩ <;>
    simp [run, step, stepDriver, stepClient, driverAction, Close, RoundTrip,
      Action.mapk, exec, Driver.continue, Client.continue, Client.action, Driver.action]

/-- Counterexample to C1 as stated: in the test with one request whose driver
pulls it and then closes the transport, the client is parked on the response
channel when `Close` runs, and its `RoundTrip` returns a nil response together
with a nil error. -/
theorem RoundTrip_after_Close_nil_error :
    ((run sampleMarshal
        [.client, .client, .driver, .driver, .driver, .client, .client]
        (initial 1 [sampleRequest] [.ReceiveRequest, .Close])).map
      (fun s => (s.client.running, s.server.Response))) =
      some (some (sampleRequest, .l73), .made) ∧
    ((run sampleMarshal
        [.client, .client, .driver, .driver, .driver, .client, .client,
         .driver, .driver, .driver, .driver, .driver, .driver, .client, .client]
        (initial 1 [sampleRequest] [.ReceiveRequest, .Close])).map
      (fun s => (s.client.got, s.panicked))) = some ([(none, none)], none) := by
  constructor <;> decide

/-! ### Runs of tests made of exchanges -/

theorem addInt32_small (x d : Int) (h1 : -2147483648 ≤ x + d) (h2 : x + d < 2147483648) :
    addInt32 x d = x + d := by
  unfold addInt32
  omega

theorem pendC_bounds (c : Client) : 0 ≤ pendC c ∧ pendC c ≤ 1 := by
  unfold pendC
  split <;> simp

theorem pendD_bounds {P : Type} (d : Driver P) : 0 ≤ pendD d ∧ pendD d ≤ 1 := by
  unfold pendD
  split <;> simp

theorem retsOf_append {P : Type} (self : ServerPtr) (a b : List (Exchange P)) :
    retsOf self (a ++ b) = retsOf self a ++ retsOf self b := by
  induction a with
  | nil => rfl
  | cons e rest ih => simp [retsOf, ih]

theorem retsOf_snoc {P : Type} (self : ServerPtr) (a : List (Exchange P)) (e : Exchange P) :
    retsOf self (a ++ [e]) = retsOf self a ++ [e.pulled self, e.pushed] := by
  rw [retsOf_append]
  rfl

theorem Inv.mk_even {P : Type} {jsonMarshal : P → Except String (List UInt8)}
    {self : ServerPtr} {exs done rest : List (Exchange P)} {c : Client} {d : Driver P}
    {server : MockHttpServer}
    (hexs : exs = done ++ rest) (hC : ClientEven jsonMarshal done rest c)
    (hD : DriverEven self done rest d) (hserver : server = openServer (pendC c + pendD d)) :
    Inv jsonMarshal self exs
      { server := server, self := self, client := c, driver := d, panicked := none } := by
  subst hserver
  exact Inv.even done rest c d hexs hC hD

theorem Inv.mk_odd {P : Type} {jsonMarshal : P → Except String (List UInt8)}
    {self : ServerPtr} {exs done rest : List (Exchange P)} {e : Exchange P} {c : Client}
    {d : Driver P} {server : MockHttpServer}
    (hexs : exs = done ++ e :: rest) (hC : ClientOdd jsonMarshal done e rest c)
    (hD : DriverOdd self done e rest d) (hserver : server = openServer (pendC c + pendD d)) :
    Inv jsonMarshal self exs
      { server := server, self := self, client := c, driver := d, panicked := none } := by
  subst hserver
  exact Inv.odd done e rest c d hexs hC hD

theorem Inv.initial {P : Type} (jsonMarshal : P → Except String (List UInt8))
    (self : ServerPtr) (exs : List (Exchange P)) :
    Inv jsonMarshal self exs (exchangeTest self exs) := by
  have h := @Inv.even P jsonMarshal self exs [] exs _ _ rfl
    (ClientEven.idle) (DriverEven.idle { failures := [] } none)
  simpa [exchangeTest, Octopus.initial, NewMockHttpServer, openServer, pendC, pendD, retsOf]
    using h


theorem Inv.step_client_even {P : Type} {jsonMarshal : P → Except String (List UInt8)}
    {self : ServerPtr} {exs done rest : List (Exchange P)} {c : Client} {d : Driver P}
    {s2 : Sys P}
    (hexs : exs = done ++ rest) (hC : ClientEven jsonMarshal done rest c)
    (hD : DriverEven self done rest d)
    (hs : step jsonMarshal .client
      { server := openServer (pendC c + pendD d), self := self, client := c, driver := d,
        panicked := none } = some s2) :
    Inv jsonMarshal self exs s2 := by
  have hb := pendD_bounds d
  cases hC with
  | l74 done0 e hdone =>
    simp [step, stepClient, RoundTrip, exec, Client.continue, openServer] at hs
    subst hs
    subst hdone
    refine Inv.mk_even hexs ?_ hD ?_
    · simpa [Exchange.result] using
        @ClientEven.idle P jsonMarshal (done0 ++ [e]) rest
    · simp [openServer, pendC]
      rw [addInt32_small] <;> omega
  | idle =>
    cases rest with
    | nil => simp [step, stepClient] at hs
    | cons e rest2 =>
      simp [step, stepClient] at hs
      subst hs
      refine Inv.mk_even hexs (ClientEven.l67 e rest2 rfl) hD ?_
      simp [openServer, pendC]
  | l67 e rest2 hrest =>
    simp [step, stepClient, RoundTrip, exec, Client.continue, openServer] at hs
    subst hs
    refine Inv.mk_even hexs (ClientEven.l68 e rest2 hrest) hD ?_
    simp [openServer, pendC]
    rw [addInt32_small] <;> omega
  | l68 e rest2 hrest =>
    subst hrest
    cases hD with
    | l109 done0 e0 t w hdone =>
      cases e0 <;>
        simp [step, stepClient, RoundTrip, exec, Driver.action, driverAction, Exchange.pushPc,
          Respond, RespondWith, Action.mapk, openServer] at hs
    | idle t w =>
      simp [step, stepClient, RoundTrip, exec, Driver.action, openServer] at hs
    | l96 e1 rest3 t w h =>
      cases e1 <;>
        simp [step, stepClient, RoundTrip, exec, Driver.action, driverAction, Exchange.pullPc,
          ReceiveRequest, ExpectRequest, Action.mapk, openServer] at hs
    | l97 e1 rest3 t w h =>
      cases h
      cases e <;>
        simp [step, stepClient, RoundTrip, exec, Driver.action, driverAction, Exchange.pullPc,
          ReceiveRequest, ExpectRequest, Action.mapk, openServer, Client.continue,
          Driver.continue] at hs
      all_goals
        subst hs
        refine Inv.mk_odd hexs ClientOdd.l69 (DriverOdd.l98 t w) ?_
        simp [openServer, pendC, pendD, Exchange.pullPc]


theorem Inv.step_client_odd {P : Type} {jsonMarshal : P → Except String (List UInt8)}
    {self : ServerPtr} {exs done rest : List (Exchange P)} {e : Exchange P} {c : Client}
    {d : Driver P} {s2 : Sys P}
    (hexs : exs = done ++ e :: rest) (hC : ClientOdd jsonMarshal done e rest c)
    (hD : DriverOdd self done e rest d)
    (hs : step jsonMarshal .client
      { server := openServer (pendC c + pendD d), self := self, client := c, driver := d,
        panicked := none } = some s2) :
    Inv jsonMarshal self exs s2 := by
  have hb := pendD_bounds d
  cases hC with
  | l69 =>
    simp [step, stepClient, RoundTrip, exec, Client.continue, openServer] at hs
    subst hs
    refine Inv.mk_odd hexs ClientOdd.l72 hD ?_
    simp [openServer, pendC]
    rw [addInt32_small] <;> omega
  | l72 =>
    simp [step, stepClient, RoundTrip, exec, Client.continue, openServer] at hs
    subst hs
    refine Inv.mk_odd hexs ClientOdd.l73 hD ?_
    simp [openServer, pendC]
    rw [addInt32_small] <;> omega
  | l73 =>
    have hexs2 : exs = (done ++ [e]) ++ rest := by simp [hexs]
    cases hD with
    | l98 t w =>
      cases e <;>
        simp [step, stepClient, RoundTrip, exec, Driver.action, driverAction, Exchange.pullPc,
          ReceiveRequest, ExpectRequest, Action.mapk, openServer] at hs
    | l99 t w =>
      cases e <;>
        simp [step, stepClient, RoundTrip, exec, Driver.action, driverAction, Exchange.pullPc,
          ReceiveRequest, ExpectRequest, Action.mapk, openServer] at hs
    | l116 req method pathAndQuery responseObject t w h =>
      simp [step, stepClient, RoundTrip, exec, Driver.action, driverAction,
        ExpectRequest, Action.mapk, openServer] at hs
    | between t w h =>
      simp [step, stepClient, RoundTrip, exec, Driver.action, openServer] at hs
    | l139 req method pathAndQuery responseObject t w h =>
      simp [step, stepClient, RoundTrip, exec, Driver.action, driverAction,
        RespondWith, Action.mapk, openServer] at hs
    | l103 t w =>
      cases e <;>
        simp [step, stepClient, RoundTrip, exec, Driver.action, driverAction, Exchange.pushPc,
          Respond, RespondWith, Action.mapk, openServer] at hs
    | l107 t w =>
      cases e <;>
        simp [step, stepClient, RoundTrip, exec, Driver.action, driverAction, Exchange.pushPc,
          Respond, RespondWith, Action.mapk, openServer] at hs
    | l108 t w =>
      cases e <;>
        simp [step, stepClient, RoundTrip, exec, Driver.action, driverAction, Exchange.pushPc,
          Respond, RespondWith, Action.mapk, openServer, Client.continue,
          Driver.continue] at hs
      all_goals
        subst hs
        refine Inv.mk_even hexs2 (ClientEven.l74 done _ rfl) (DriverEven.l109 done _ t w rfl) ?_
        simp [openServer, pendC, pendD, Exchange.pushPc]

theorem Inv.step_driver_even {P : Type} {jsonMarshal : P → Except String (List UInt8)}
    {self : ServerPtr} {exs done rest : List (Exchange P)} {c : Client} {d : Driver P}
    {s2 : Sys P}
    (hexs : exs = done ++ rest) (hC : ClientEven jsonMarshal done rest c)
    (hD : DriverEven self done rest d)
    (hs : step jsonMarshal .driver
      { server := openServer (pendC c + pendD d), self := self, client := c, driver := d,
        panicked := none } = some s2) :
    Inv jsonMarshal self exs s2 := by
  have hb := pendC_bounds c
  cases hD with
  | l109 done0 e t w hdone =>
    subst hdone
    cases e with
    | plain req response err =>
      simp [step, stepDriver, driverAction, Exchange.pushPc, Respond, Action.mapk,
        exec, Driver.continue, openServer] at hs
      subst hs
      refine Inv.mk_even hexs hC ?_ ?_
      · have h := @DriverEven.idle P self (done0 ++ [.plain req response err]) rest t w
        rw [retsOf_snoc] at h
        simpa [Exchange.pulled, Exchange.pushed] using h
      · simp [openServer, pendD, Exchange.pushPc]
        rw [addInt32_small] <;> omega
    | fluent req method pathAndQuery responseObject =>
      simp [step, stepDriver, driverAction, Exchange.pushPc, Respond, RespondWith, Action.mapk,
        exec, Driver.continue, openServer] at hs
      subst hs
      refine Inv.mk_even hexs hC ?_ ?_
      · have h := @DriverEven.idle P self
          (done0 ++ [.fluent req method pathAndQuery responseObject]) rest t w
        rw [retsOf_snoc] at h
        simpa [Exchange.pulled, Exchange.pushed] using h
      · simp [openServer, pendD, Exchange.pushPc]
        rw [addInt32_small] <;> omega
  | idle t w =>
    cases rest with
    | nil => simp [step, stepDriver, opsOf] at hs
    | cons e rest2 =>
      cases e <;>
        simp [step, stepDriver, opsOf, Exchange.pullOp, DriverOp.entry] at hs
      all_goals
        subst hs
        refine Inv.mk_even hexs hC (DriverEven.l96 _ rest2 t w rfl) ?_
        simp [openServer, pendD, Exchange.pullPc]
  | l96 e rest2 t w hrest =>
    cases e <;>
      simp [step, stepDriver, driverAction, Exchange.pullPc, ReceiveRequest, ExpectRequest,
        Action.mapk, exec, Driver.continue, openServer] at hs
    all_goals
      subst hs
      refine Inv.mk_even hexs hC (DriverEven.l97 _ rest2 t w hrest) ?_
      simp [openServer, pendD, Exchange.pullPc]
      rw [addInt32_small] <;> omega
  | l97 e rest2 t w hrest =>
    subst hrest
    cases hC with
    | l74 done0 e0 hdone =>
      cases e <;>
        simp [step, stepDriver, driverAction, Exchange.pullPc, ReceiveRequest, ExpectRequest,
          Action.mapk, exec, Client.action, RoundTrip, openServer] at hs
    | idle =>
      cases e <;>
        simp [step, stepDriver, driverAction, Exchange.pullPc, ReceiveRequest, ExpectRequest,
          Action.mapk, exec, Client.action, openServer] at hs
    | l67 e1 rest3 h =>
      cases e <;>
        simp [step, stepDriver, driverAction, Exchange.pullPc, ReceiveRequest, ExpectRequest,
          Action.mapk, exec, Client.action, RoundTrip, openServer] at hs
    | l68 e1 rest3 h =>
      cases h
      cases e <;>
        simp [step, stepDriver, driverAction, Exchange.pullPc, ReceiveRequest, ExpectRequest,
          Action.mapk, exec, Client.action, RoundTrip, openServer, Client.continue,
          Driver.continue] at hs
      all_goals
        subst hs
        refine Inv.mk_odd hexs ClientOdd.l69 (DriverOdd.l98 t w) ?_
        simp [openServer, pendC, pendD, Exchange.pullPc]


theorem Inv.step_driver_odd {P : Type} {jsonMarshal : P → Except String (List UInt8)}
    {self : ServerPtr} {exs done rest : List (Exchange P)} {e : Exchange P} {c : Client}
    {d : Driver P} {s2 : Sys P}
    (hexs : exs = done ++ e :: rest) (hC : ClientOdd jsonMarshal done e rest c)
    (hD : DriverOdd self done e rest d)
    (hs : step jsonMarshal .driver
      { server := openServer (pendC c + pendD d), self := self, client := c, driver := d,
        panicked := none } = some s2) :
    Inv jsonMarshal self exs s2 := by
  have hb := pendC_bounds c
  cases hD with
  | l98 t w =>
    cases e <;>
      simp [step, stepDriver, driverAction, Exchange.pullPc, ReceiveRequest, ExpectRequest,
        Action.mapk, exec, Driver.continue, openServer, Exchange.req] at hs
    all_goals
      subst hs
      refine Inv.mk_odd hexs hC (DriverOdd.l99 t w) ?_
      simp [openServer, pendD, Exchange.pullPc]
      rw [addInt32_small] <;> omega
  | l99 t w =>
    cases e with
    | plain req response err =>
      simp [step, stepDriver, driverAction, Exchange.pullPc, ReceiveRequest,
        Action.mapk, exec, Driver.continue, openServer, Exchange.req] at hs
      subst hs
      refine Inv.mk_odd hexs hC ?_ ?_
      · exact DriverOdd.between t w (by intro _ _ _ _ h; cases h)
      · simp [openServer, pendD, Exchange.pullPc]
    | fluent req method pathAndQuery responseObject =>
      simp [step, stepDriver, driverAction, Exchange.pullPc, ReceiveRequest, ExpectRequest,
        Action.mapk, exec, Driver.continue, openServer, Exchange.req] at hs
      subst hs
      refine Inv.mk_odd hexs hC (DriverOdd.l116 req method pathAndQuery responseObject t w rfl) ?_
      simp [openServer, pendD, Exchange.pullPc]
  | l116 req method pathAndQuery responseObject t w h =>
    subst h
    simp [step, stepDriver, driverAction, ExpectRequest,
      Action.mapk, exec, Driver.continue, openServer] at hs
    subst hs
    refine Inv.mk_odd hexs hC ?_ ?_
    · exact DriverOdd.between _ _ (by intro _ _ _ _ h; cases h; rfl)
    · simp [openServer, pendD]
  | between t w hw =>
    cases e with
    | plain req response err =>
      simp [step, stepDriver, Exchange.pushOp, DriverOp.entry] at hs
      subst hs
      refine Inv.mk_odd hexs hC (DriverOdd.l103 t w) ?_
      simp [openServer, pendD, Exchange.pushPc]
    | fluent req method pathAndQuery responseObject =>
      have hw2 := hw req method pathAndQuery responseObject rfl
      subst hw2
      simp [step, stepDriver, Exchange.pushOp, DriverOp.entry] at hs
      subst hs
      refine Inv.mk_odd hexs hC
        (DriverOdd.l139 req method pathAndQuery responseObject t _ rfl) ?_
      simp [openServer, pendD]
  | l139 req method pathAndQuery responseObject t w h =>
    subst h
    simp [step, stepDriver, driverAction, RespondWith,
      Action.mapk, exec, Driver.continue, openServer] at hs
    subst hs
    refine Inv.mk_odd hexs hC (DriverOdd.l103 t w) ?_
    simp [openServer, pendD, Exchange.pushPc]
  | l103 t w =>
    cases e <;>
      simp [step, stepDriver, driverAction, Exchange.pushPc, Respond, RespondWith,
        Action.mapk, exec, Driver.continue, openServer] at hs
    all_goals
      subst hs
      refine Inv.mk_odd hexs hC (DriverOdd.l107 t w) ?_
      simp [openServer, pendD, Exchange.pushPc]
  | l107 t w =>
    cases e <;>
      simp [step, stepDriver, driverAction, Exchange.pushPc, Respond, RespondWith,
        Action.mapk, exec, Driver.continue, openServer] at hs
    all_goals
      subst hs
      refine Inv.mk_odd hexs hC (DriverOdd.l108 t w) ?_
      simp [openServer, pendD, Exchange.pushPc]
      rw [addInt32_small] <;> omega
  | l108 t w =>
    have hexs2 : exs = (done ++ [e]) ++ rest := by simp [hexs]
    cases hC with
    | l69 =>
      cases e <;>
        simp [step, stepDriver, driverAction, Exchange.pushPc, Respond, RespondWith,
          Action.mapk, exec, Client.action, RoundTrip, openServer] at hs
    | l72 =>
      cases e <;>
        simp [step, stepDriver, driverAction, Exchange.pushPc, Respond, RespondWith,
          Action.mapk, exec, Client.action, RoundTrip, openServer] at hs
    | l73 =>
      cases e <;>
        simp [step, stepDriver, driverAction, Exchange.pushPc, Respond, RespondWith,
          Action.mapk, exec, Client.action, RoundTrip, openServer, Client.continue,
          Driver.continue] at hs
      all_goals
        subst hs
        refine Inv.mk_even hexs2 (ClientEven.l74 done _ rfl) (DriverEven.l109 done _ t w rfl) ?_
        simp [openServer, pendC, pendD, Exchange.pushPc]

/-- The invariant is kept by every step of either goroutine. -/
theorem Inv.step_preserved {P : Type} {jsonMarshal : P → Except String (List UInt8)}
    {self : ServerPtr} {exs : List (Exchange P)} {s s2 : Sys P} (a : Actor)
    (hinv : Inv jsonMarshal self exs s) (hs : step jsonMarshal a s = some s2) :
    Inv jsonMarshal self exs s2 := by
  cases hinv with
  | even done rest c d hexs hC hD =>
    cases a with
    | client => exact Inv.step_client_even hexs hC hD hs
    | driver => exact Inv.step_driver_even hexs hC hD hs
  | odd done e rest c d hexs hC hD =>
    cases a with
    | client => exact Inv.step_client_odd hexs hC hD hs
    | driver => exact Inv.step_driver_odd hexs hC hD hs

/-- Every state reached by a run of an exchange test satisfies the invariant. -/
theorem Inv.run_preserved {P : Type} {jsonMarshal : P → Except String (List UInt8)}
    {self : ServerPtr} {exs : List (Exchange P)} (sched : List Actor) :
    ∀ {s s2 : Sys P}, Inv jsonMarshal self exs s → run jsonMarshal sched s = some s2 →
      Inv jsonMarshal self exs s2 := by
  induction sched with
  | nil =>
    intro s s2 hinv hrun
    simp [run] at hrun
    subst hrun
    exact hinv
  | cons a rest ih =>
    intro s s2 hinv hrun
    simp only [run] at hrun
    cases hstep : step jsonMarshal a s with
    | none => simp [hstep] at hrun
    | some s1 =>
      simp only [hstep] at hrun
      exact ih (Inv.step_preserved a hinv hstep) hrun

/-! ### Every run is finite -/

theorem exec_solo_cont {Pc R Pc2 R2 : Type} {m m2 : MockHttpServer}
    {peer : Option (Action Pc2 R2)} {act : Action Pc R} {k : Next Pc R}
    (h : exec m peer act = .solo m2 k) : act.HasCont k := by
  cases act with
  | addPending d k0 => simp [exec] at h; exact h.2.symm
  | sendRequest r k0 =>
    simp only [exec] at h
    split at h
    · cases h
    · cases h
    · split at h <;> cases h
  | recvRequest f =>
    simp only [exec] at h
    split at h
    · cases h
    · simp at h; exact ⟨_, h.2.symm⟩
    · split at h <;> cases h
  | sendResponse x k0 =>
    simp only [exec] at h
    split at h
    · cases h
    · cases h
    · split at h <;> cases h
  | recvResponse f =>
    simp only [exec] at h
    split at h
    · cases h
    · simp at h; exact ⟨_, h.2.symm⟩
    · split at h <;> cases h
  | storeClosed v k0 => simp [exec] at h; exact h.2.symm
  | loadClosed f => simp [exec] at h; exact ⟨_, h.2.symm⟩
  | closeRequest k0 =>
    simp only [exec] at h
    split at h
    · cases h
    · cases h
    · simp at h; exact h.2.symm
  | closeResponse k0 =>
    simp only [exec] at h
    split at h
    · cases h
    · cases h
    · simp at h; exact h.2.symm
  | loadPending f => simp [exec] at h; exact ⟨_, h.2.symm⟩
  | tau k0 => simp [exec] at h; exact h.2.symm
  | panic msg => simp [exec] at h

theorem exec_joint_cont {Pc R Pc2 R2 : Type} {m m2 : MockHttpServer}
    {peer : Option (Action Pc2 R2)} {act : Action Pc R} {k : Next Pc R} {kp : Next Pc2 R2}
    (h : exec m peer act = .joint m2 k kp) :
    act.HasCont k ∧ ∃ pa, peer = some pa ∧ pa.HasCont kp := by
  cases act with
  | addPending d k0 => simp [exec] at h
  | sendRequest r k0 =>
    simp only [exec] at h
    split at h
    · cases h
    · cases h
    · split at h
      · simp at h
        exact ⟨h.2.1.symm, _, rfl, ⟨_, h.2.2.symm⟩⟩
      · cases h
  | recvRequest f =>
    simp only [exec] at h
    split at h
    · cases h
    · cases h
    · split at h
      · simp at h
        exact ⟨⟨_, h.2.1.symm⟩, _, rfl, h.2.2.symm⟩
      · cases h
  | sendResponse x k0 =>
    simp only [exec] at h
    split at h
    · cases h
    · cases h
    · split at h
      · simp at h
        exact ⟨h.2.1.symm, _, rfl, ⟨_, h.2.2.symm⟩⟩
      · cases h
  | recvResponse f =>
    simp only [exec] at h
    split at h
    · cases h
    · cases h
    · split at h
      · simp at h
        exact ⟨⟨_, h.2.1.symm⟩, _, rfl, h.2.2.symm⟩
      · cases h
  | storeClosed v k0 => simp [exec] at h
  | loadClosed f => simp [exec] at h
  | closeRequest k0 =>
    simp only [exec] at h
    split at h <;> cases h
  | closeResponse k0 =>
    simp only [exec] at h
    split at h <;> cases h
  | loadPending f => simp [exec] at h
  | tau k0 => simp [exec] at h
  | panic msg => simp [exec] at h

/-- Statements left to the client after a continuation of `RoundTrip`. -/
theorem RoundTrip_cont_lt (c : Client) (r : Request) (pc : RoundTripPc)
    (k : Next RoundTripPc (Option Response × Option String))
    (hrun : c.running = some (r, pc)) (h : (RoundTrip r pc).HasCont k) :
    remC (c.continue r k) < remC c := by
  cases pc <;> simp [RoundTrip, Action.HasCont] at h
  all_goals first
    | (subst h; simp [remC, hrun, Client.continue, remRoundTrip])
    | (obtain ⟨x, h⟩ := h; subst h; simp [remC, hrun, Client.continue, remRoundTrip])

theorem driverAction_cont_lt {P : Type} (jsonMarshal : P → Except String (List UInt8))
    (m : ServerPtr) (d : Driver P) (pc : DriverPc P)
    (k : Next (DriverPc P) (T × DriverRet))
    (hrun : d.running = some pc) (h : (driverAction jsonMarshal m d.t pc).HasCont k) :
    remD (d.continue k) < remD d := by
  cases pc with
  | ReceiveRequest pc =>
    cases pc <;> simp [driverAction, ReceiveRequest, Action.mapk, Action.HasCont] at h
    all_goals first
      | (subst h; simp [remD, hrun, Driver.continue, remPc, remReceiveRequest])
      | (rcases h with h | h <;> subst h <;>
         simp [remD, hrun, Driver.continue, remPc, remReceiveRequest])
      | (rcases h with ⟨x, rfl⟩
         simp [remD, hrun, Driver.continue, remPc, remReceiveRequest])
  | Respond response err pc =>
    cases pc <;> simp [driverAction, Respond, Action.mapk, Action.HasCont] at h
    all_goals first
      | (subst h; simp [remD, hrun, Driver.continue, remPc, remRespond])
      | (rcases h with h | h <;> subst h <;>
         simp [remD, hrun, Driver.continue, remPc, remRespond])
  | ExpectRequest method pathAndQuery pc =>
    cases pc with
    | l115 pc =>
      cases pc <;>
        simp [driverAction, ExpectRequest, ReceiveRequest, Action.mapk, Action.HasCont] at h
      all_goals first
        | (subst h; simp [remD, hrun, Driver.continue, remPc, remReceiveRequest])
        | (rcases h with h | h <;> subst h <;>
           simp [remD, hrun, Driver.continue, remPc, remReceiveRequest])
        | (rcases h with ⟨x, rfl⟩
           simp [remD, hrun, Driver.continue, remPc, remReceiveRequest])
    | l116 r ok =>
      cases ok <;> cases r <;>
        simp [driverAction, ExpectRequest, Action.mapk, Action.HasCont] at h
      all_goals
        subst h
        simp [remD, hrun, Driver.continue, remPc]
  | RespondWith responseObject pc =>
    cases responseObject with
    | none =>
      cases pc <;> simp [driverAction, RespondWith, Action.mapk, Action.HasCont] at h
    | some obj =>
      cases pc with
      | l139 =>
        simp [driverAction, RespondWith, Action.mapk, Action.HasCont] at h
        subst h
        simp [remD, hrun, Driver.continue, remPc, remRespond]
      | l149 pc =>
        cases pc <;>
          simp [driverAction, RespondWith, Respond, Action.mapk, Action.HasCont] at h
        all_goals first
          | (subst h; simp [remD, hrun, Driver.continue, remPc, remRespond])
          | (rcases h with h | h <;> subst h <;>
             simp [remD, hrun, Driver.continue, remPc, remRespond])
  | Close pc =>
    cases pc <;> simp [driverAction, Close, Action.mapk, Action.HasCont] at h
    all_goals
      subst h
      simp [remD, hrun, Driver.continue, remPc]
  | GetPendingMessageCount =>
    simp [driverAction, GetPendingMessageCount, Action.mapk, Action.HasCont] at h
    obtain ⟨x, h⟩ := h
    subst h
    simp [remD, hrun, Driver.continue, remPc]

theorem DriverOp.entry_rem {P : Type} (self : ServerPtr) (w : Option RequestWrapper)
    (op : DriverOp P) (pc : DriverPc P) (h : op.entry self w = .ok pc) :
    remPc pc < opWeight op := by
  cases op <;> simp [DriverOp.entry] at h
  case RespondWith obj =>
    split at h
    · cases h
    · split at h <;> simp at h
      subst h
      simp [remPc, opWeight]
  all_goals
    subst h
    simp [remPc, opWeight, remReceiveRequest, remRespond]

/-- A step that does not panic uses up fuel. -/
theorem step_fuel {P : Type} (jsonMarshal : P → Except String (List UInt8)) (a : Actor)
    (s s2 : Sys P) (hs : step jsonMarshal a s = some s2) (hp : s2.panicked = none) :
    fuel s2 < fuel s := by
  unfold step at hs
  split at hs
  · cases hs
  · rename_i hpan
    cases a with
    | client =>
      simp only [stepClient] at hs
      split at hs
      · rename_i hrun
        split at hs
        · cases hs
        · rename_i r rest htodo
          simp at hs
          subst hs
          simp [fuel, remC, hrun, htodo, remRoundTrip]
          omega
      · rename_i r pc hrun
        split at hs
        · cases hs
        · simp at hs; subst hs; simp at hp
        · rename_i server k hexec
          simp at hs
          subst hs
          have := RoundTrip_cont_lt s.client r pc k hrun (exec_solo_cont hexec)
          simp [fuel]
          omega
        · rename_i server k kpeer hexec
          simp at hs
          subst hs
          obtain ⟨hk, pa, hpa, hkp⟩ := exec_joint_cont hexec
          have h1 := RoundTrip_cont_lt s.client r pc k hrun hk
          simp only [Driver.action] at hpa
          cases hdrun : s.driver.running with
          | none => simp [hdrun] at hpa
          | some dpc =>
            simp [hdrun] at hpa
            subst hpa
            have h2 := driverAction_cont_lt jsonMarshal s.self s.driver dpc kpeer hdrun hkp
            simp [fuel]
            omega
    | driver =>
      simp only [stepDriver] at hs
      split at hs
      · rename_i hrun
        split at hs
        · cases hs
        · rename_i op rest hscript
          split at hs
          · simp at hs; subst hs; simp at hp
          · rename_i pc hentry
            simp at hs
            subst hs
            have := DriverOp.entry_rem _ _ _ _ hentry
            simp [fuel, remD, hrun, hscript]
            omega
      · rename_i pc hrun
        split at hs
        · cases hs
        · simp at hs; subst hs; simp at hp
        · rename_i server k hexec
          simp at hs
          subst hs
          have := driverAction_cont_lt jsonMarshal s.self s.driver pc k hrun
            (exec_solo_cont hexec)
          simp [fuel]
          omega
        · rename_i server k kpeer hexec
          obtain ⟨hk, pa, hpa, hkp⟩ := exec_joint_cont hexec
          have h1 := driverAction_cont_lt jsonMarshal s.self s.driver pc k hrun hk
          simp only [Client.action] at hpa
          cases hcrun : s.client.running with
          | none => simp [hcrun] at hpa
          | some rp =>
            obtain ⟨r, cpc⟩ := rp
            simp [hcrun] at hpa hs
            subst hpa
            subst hs
            have h2 := RoundTrip_cont_lt s.client r cpc kpeer hcrun hkp
            simp [fuel]
            omega

theorem run_panicked_none {P : Type} (jsonMarshal : P → Except String (List UInt8))
    (sched : List Actor) (s s2 : Sys P) (hrun : run jsonMarshal sched s = some s2)
    (hp : s2.panicked = none) : s.panicked = none := by
  cases sched with
  | nil => simp [run] at hrun; subst hrun; exact hp
  | cons a rest =>
    simp only [run] at hrun
    cases hpan : s.panicked with
    | none => rfl
    | some msg => simp [step, hpan] at hrun

/-- A run that ends without a panic is no longer than the fuel it uses up. -/
theorem run_fuel {P : Type} (jsonMarshal : P → Except String (List UInt8))
    (sched : List Actor) :
    ∀ (s s2 : Sys P), run jsonMarshal sched s = some s2 → s2.panicked = none →
      sched.length + fuel s2 ≤ fuel s := by
  induction sched with
  | nil =>
    intro s s2 hrun _
    simp [run] at hrun
    subst hrun
    simp
  | cons a rest ih =>
    intro s s2 hrun hp
    simp only [run] at hrun
    cases hstep : step jsonMarshal a s with
    | none => simp [hstep] at hrun
    | some s1 =>
      simp only [hstep] at hrun
      have h1 := ih s1 s2 hrun hp
      have h2 := step_fuel jsonMarshal a s s1 hstep
        (run_panicked_none jsonMarshal rest s1 s2 hrun hp)
      simp only [List.length_cons]
      omega

theorem opsOf_weight {P : Type} (exs : List (Exchange P)) :
    ((opsOf exs).map opWeight).sum ≤ 12 * exs.length := by
  induction exs with
  | nil => simp [opsOf]
  | cons e rest ih =>
    cases e <;> simp [opsOf, Exchange.pullOp, Exchange.pushOp, opWeight] <;> omega

theorem fuel_exchangeTest {P : Type} (self : ServerPtr) (exs : List (Exchange P)) :
    fuel (exchangeTest self exs) ≤ 19 * exs.length := by
  have := opsOf_weight exs
  simp [fuel, exchangeTest, initial, remC, remD]
  omega


/-- In a state of a run of an exchange test in which neither goroutine can
move, every call has returned and every request and response was delivered. -/
theorem Inv.stuck {P : Type} {jsonMarshal : P → Except String (List UInt8)}
    {self : ServerPtr} {exs : List (Exchange P)} {s : Sys P}
    (hinv : Inv jsonMarshal self exs s) (hstuck : ∀ a, step jsonMarshal a s = none) :
    s.client.running = none ∧ s.client.todo = [] ∧
    s.client.got = exs.map (Exchange.result jsonMarshal) ∧
    s.driver.running = none ∧ s.driver.script = [] ∧ s.driver.log = retsOf self exs := by
  have hc := hstuck .client
  have hd := hstuck .driver
  cases hinv with
  | even done rest c d hexs hC hD =>
    cases hC with
    | l74 done0 e hdone =>
      simp [step, stepClient, RoundTrip, exec, Client.continue, openServer] at hc
    | l67 e rest2 hrest =>
      simp [step, stepClient, RoundTrip, exec, Client.continue, openServer] at hc
    | idle =>
      cases rest with
      | cons e rest2 => simp [step, stepClient] at hc
      | nil =>
        cases hD with
        | l109 done0 e t w hdone =>
          cases e <;>
            simp [step, stepDriver, driverAction, Exchange.pushPc, Respond, RespondWith,
              Action.mapk, exec, Driver.continue, openServer] at hd
        | idle t w =>
          simp at hexs
          subst hexs
          simp [opsOf]
        | l96 e rest2 t w hrest => cases hrest
        | l97 e rest2 t w hrest => cases hrest
    | l68 e rest2 hrest =>
      subst hrest
      cases hD with
      | l109 done0 e0 t w hdone =>
        cases e0 <;>
          simp [step, stepDriver, driverAction, Exchange.pushPc, Respond, RespondWith,
            Action.mapk, exec, Driver.continue, openServer] at hd
      | idle t w =>
        cases e <;> simp [step, stepDriver, opsOf, Exchange.pullOp, DriverOp.entry] at hd
      | l96 e1 rest3 t w h =>
        cases e1 <;>
          simp [step, stepDriver, driverAction, Exchange.pullPc, ReceiveRequest, ExpectRequest,
            Action.mapk, exec, Driver.continue, openServer] at hd
      | l97 e1 rest3 t w h =>
        cases h
        cases e <;>
          simp [step, stepClient, RoundTrip, exec, Driver.action, driverAction,
            Exchange.pullPc, ReceiveRequest, ExpectRequest, Action.mapk, openServer,
            Client.continue, Driver.continue] at hc
  | odd done e rest c d hexs hC hD =>
    cases hC with
    | l69 => simp [step, stepClient, RoundTrip, exec, Client.continue, openServer] at hc
    | l72 => simp [step, stepClient, RoundTrip, exec, Client.continue, openServer] at hc
    | l73 =>
      cases hD with
      | l98 t w =>
        cases e <;>
          simp [step, stepDriver, driverAction, Exchange.pullPc, ReceiveRequest, ExpectRequest,
            Action.mapk, exec, Driver.continue, openServer] at hd
      | l99 t w =>
        cases e <;>
          simp [step, stepDriver, driverAction, Exchange.pullPc, ReceiveRequest, ExpectRequest,
            Action.mapk, exec, Driver.continue, openServer] at hd
      | l116 req method pathAndQuery responseObject t w h =>
        simp [step, stepDriver, driverAction, ExpectRequest,
          Action.mapk, exec, Driver.continue, openServer] at hd
      | between t w hw =>
        cases e with
        | plain req response err =>
          simp [step, stepDriver, Exchange.pushOp, DriverOp.entry] at hd
        | fluent req method pathAndQuery responseObject =>
          have hw2 := hw req method pathAndQuery responseObject rfl
          subst hw2
          simp [step, stepDriver, Exchange.pushOp, DriverOp.entry] at hd
      | l139 req method pathAndQuery responseObject t w h =>
        simp [step, stepDriver, driverAction, RespondWith,
          Action.mapk, exec, Driver.continue, openServer] at hd
      | l103 t w =>
        cases e <;>
          simp [step, stepDriver, driverAction, Exchange.pushPc, Respond, RespondWith,
            Action.mapk, exec, Driver.continue, openServer] at hd
      | l107 t w =>
        cases e <;>
          simp [step, stepDriver, driverAction, Exchange.pushPc, Respond, RespondWith,
            Action.mapk, exec, Driver.continue, openServer] at hd
      | l108 t w =>
        cases e <;>
          simp [step, stepClient, RoundTrip, exec, Driver.action, driverAction,
            Exchange.pushPc, Respond, RespondWith, Action.mapk, openServer, Client.continue,
            Driver.continue] at hc

/-- In every state of a run of an exchange test, the process has not
panicked, the results the client has are an initial segment of the expected
results and the values the driver's calls returned are an initial segment of
the expected ones. -/
theorem Inv.delivered {P : Type} {jsonMarshal : P → Except String (List UInt8)}
    {self : ServerPtr} {exs : List (Exchange P)} {s : Sys P}
    (hinv : Inv jsonMarshal self exs s) :
    s.panicked = none ∧
    (∃ later, exs.map (Exchange.result jsonMarshal) = s.client.got ++ later) ∧
    (∃ later, retsOf self exs = s.driver.log ++ later) := by
  cases hinv with
  | even done rest c d hexs hC hD =>
    subst hexs
    refine ⟨rfl, ?_, ?_⟩
    · cases hC with
      | l74 done0 e hdone =>
        subst hdone
        exact ⟨(e :: rest).map (Exchange.result jsonMarshal), by simp⟩
      | idle => exact ⟨rest.map (Exchange.result jsonMarshal), by simp⟩
      | l67 e rest2 hrest => exact ⟨rest.map (Exchange.result jsonMarshal), by simp⟩
      | l68 e rest2 hrest => exact ⟨rest.map (Exchange.result jsonMarshal), by simp⟩
    · cases hD with
      | l109 done0 e t w hdone =>
        subst hdone
        exact ⟨e.pushed :: retsOf self rest, by simp [retsOf_append, retsOf]⟩
      | idle t w => exact ⟨retsOf self rest, by simp [retsOf_append]⟩
      | l96 e rest2 t w hrest => exact ⟨retsOf self rest, by simp [retsOf_append]⟩
      | l97 e rest2 t w hrest => exact ⟨retsOf self rest, by simp [retsOf_append]⟩
  | odd done e rest c d hexs hC hD =>
    subst hexs
    refine ⟨rfl, ?_, ?_⟩
    · cases hC <;> exact ⟨(e :: rest).map (Exchange.result jsonMarshal), by simp⟩
    · cases hD with
      | l98 t w => exact ⟨retsOf self (e :: rest), by simp [retsOf_append]⟩
      | l99 t w => exact ⟨retsOf self (e :: rest), by simp [retsOf_append]⟩
      | l116 req method pathAndQuery responseObject t w h =>
        exact ⟨retsOf self (e :: rest), by simp [retsOf_append]⟩
      | between t w hw =>
        exact ⟨e.pushed :: retsOf self rest, by simp [retsOf_append, retsOf]⟩
      | l139 req method pathAndQuery responseObject t w h =>
        exact ⟨e.pushed :: retsOf self rest, by simp [retsOf_append, retsOf]⟩
      | l103 t w => exact ⟨e.pushed :: retsOf self rest, by simp [retsOf_append, retsOf]⟩
      | l107 t w => exact ⟨e.pushed :: retsOf self rest, by simp [retsOf_append, retsOf]⟩
      | l108 t w => exact ⟨e.pushed :: retsOf self rest, by simp [retsOf_append, retsOf]⟩


theorem Sys.pendingMessageCount_eq {P : Type} (s : Sys P) :
    s.pendingMessageCount = some s.server.pendingMsgCount := by
  simp [Sys.pendingMessageCount, GetPendingMessageCount, exec]

theorem retsOf_last_not_pull {P : Type} (self : ServerPtr) (done : List (Exchange P))
    (v : DriverRet) (h : (retsOf self done).getLast? = some v) : v.isPull = false := by
  rcases List.eq_nil_or_concat done with hnil | ⟨front, e, hdone⟩
  · subst hnil
    simp [retsOf] at h
  · rw [List.concat_eq_append] at hdone
    subst hdone
    rw [retsOf_snoc] at h
    simp [List.getLast?_append] at h
    subst h
    cases e <;> rfl

/-- The counter in the states of a run of an exchange test. -/
theorem Inv.count {P : Type} {jsonMarshal : P → Except String (List UInt8)}
    {self : ServerPtr} {exs : List (Exchange P)} {s : Sys P}
    (hinv : Inv jsonMarshal self exs s) :
    (s.client.running = none → s.driver.running = none → s.server.pendingMsgCount = 0) ∧
    (s.driver.betweenPullAndPush →
      ∃ r, (s.client.running = some (r, .l69) ∧ s.server.pendingMsgCount = 1) ∨
        (s.client.running = some (r, .l72) ∧ s.server.pendingMsgCount = 0) ∨
        (s.client.running = some (r, .l73) ∧ s.server.pendingMsgCount = 1)) := by
  cases hinv with
  | even done rest c d hexs hC hD =>
    constructor
    · intro h1 h2
      have h3 : c.running = none := h1
      have h4 : d.running = none := h2
      simp [openServer, pendC, pendD, h3, h4]
    · rintro ⟨hrun, v, hlast, hpull⟩
      cases hD with
      | l109 done0 e t w hdone => cases e <;> simp [Exchange.pushPc] at hrun
      | idle t w =>
        have := retsOf_last_not_pull self done v hlast
        simp [this] at hpull
      | l96 e rest2 t w hrest => cases e <;> simp [Exchange.pullPc] at hrun
      | l97 e rest2 t w hrest => cases e <;> simp [Exchange.pullPc] at hrun
  | odd done e rest c d hexs hC hD =>
    constructor
    · intro h1 h2
      cases hC <;> simp at h1
    · rintro ⟨hrun, -⟩
      have h4 : d.running = none := hrun
      refine ⟨e.req, ?_⟩
      cases hC <;> simp [openServer, pendC, pendD, h4]

theorem run_append {P : Type} (jsonMarshal : P → Except String (List UInt8))
    (sched more : List Actor) :
    ∀ (s s1 : Sys P), run jsonMarshal sched s = some s1 →
      run jsonMarshal (sched ++ more) s = run jsonMarshal more s1 := by
  induction sched with
  | nil => intro s s1 h; simp [run] at h; subst h; rfl
  | cons a rest ih =>
    intro s s1 h
    simp only [run, List.cons_append] at h ⊢
    cases hstep : step jsonMarshal a s with
    | none => simp [hstep] at h
    | some s2 =>
      simp only [hstep] at h ⊢
      exact ih s2 s1 h

/-- From every state of a run of an exchange test the test can run on to a
state in which neither goroutine can move. -/
theorem Inv.finishes {P : Type} {jsonMarshal : P → Except String (List UInt8)}
    {self : ServerPtr} {exs : List (Exchange P)} (n : Nat) :
    ∀ s : Sys P, fuel s ≤ n → Inv jsonMarshal self exs s →
      ∃ more s2, run jsonMarshal more s = some s2 ∧ ∀ a, step jsonMarshal a s2 = none := by
  induction n with
  | zero =>
    intro s hfuel hinv
    refine ⟨[], s, rfl, ?_⟩
    intro a
    cases hstep : step jsonMarshal a s with
    | none => rfl
    | some s1 =>
      have h1 := (Inv.step_preserved a hinv hstep).delivered.1
      have := step_fuel jsonMarshal a s s1 hstep h1
      omega
  | succ n ih =>
    intro s hfuel hinv
    by_cases hstuck : ∀ a, step jsonMarshal a s = none
    · exact ⟨[], s, rfl, hstuck⟩
    · push_neg at hstuck
      obtain ⟨a, ha⟩ := hstuck
      cases hstep : step jsonMarshal a s with
      | none => exact absurd hstep ha
      | some s1 =>
        have hinv1 := Inv.step_preserved a hinv hstep
        have := step_fuel jsonMarshal a s s1 hstep hinv1.delivered.1
        obtain ⟨more, s2, hrun, hdone⟩ := ih s1 (by omega) hinv1
        exact ⟨a :: more, s2, by simp [run, hstep, hrun], hdone⟩

/-- C2, as the code has it.  In a test on a transport built by
`NewMockHttpServer` and made of exchanges (one `RoundTrip` on the client side
paired on the driver side with one pull, `ReceiveRequest` or `ExpectRequest`,
followed by one push, `Respond` or `RespondWith`), under every schedule:
`GetPendingMessageCount` returns 0 before any exchange starts and in every
state in which both goroutines are between calls (`RoundTrip` has returned
and the push has returned); in every state between the pull returning and the
push being called it returns 1 while the client stands on line 69 or is
parked on line 73 of `RoundTrip`, and 0 while the client stands on line 72,
between its decrement and its next increment. -/
theorem pendingCount_in_exchanges {P : Type} (jsonMarshal : P → Except String (List UInt8))
    (self : ServerPtr) (exs : List (Exchange P)) (sched : List Actor) (s : Sys P)
    (hrun : run jsonMarshal sched (exchangeTest self exs) = some s) :
    (exchangeTest self exs).pendingMessageCount = some 0 ∧
    (s.client.running = none → s.driver.running = none → s.pendingMessageCount = some 0) ∧
    (s.driver.betweenPullAndPush →
      ∃ r, (s.client.running = some (r, .l69) ∧ s.pendingMessageCount = some 1) ∨
        (s.client.running = some (r, .l72) ∧ s.pendingMessageCount = some 0) ∨
        (s.client.running = some (r, .l73) ∧ s.pendingMessageCount = some 1)) := by
  have hinv := Inv.run_preserved sched (Inv.initial jsonMarshal self exs) hrun
  simp only [Sys.pendingMessageCount_eq, Option.some.injEq]
  exact ⟨rfl, hinv.count.1, hinv.count.2⟩

/-- C7.  In a test in which the client issues the requests of `exs` one at a
time through `RoundTrip` and the driver makes for each a pull and then a push
(`ExpectRequest` then `RespondWith` for an `Exchange.fluent`, `ReceiveRequest`
then `Respond` for an `Exchange.plain`), under every schedule and in every
state reached: the process has not panicked; the results returned to the
client so far are, in order, an initial segment of the responses pushed for
`exs`; the values returned to the driver so far are, in order, an initial
segment of the handles of the requests of `exs`; the run has at most 19 steps
per exchange and can always run on to a state in which neither goroutine can
move; and in such a state every `RoundTrip` has returned the response pushed
for its own request and every pull has returned the request of its own
exchange, none dropped, duplicated or reordered. -/
theorem exchanges_delivered_in_order {P : Type}
    (jsonMarshal : P → Except String (List UInt8))
    (self : ServerPtr) (exs : List (Exchange P)) (sched : List Actor) (s : Sys P)
    (hrun : run jsonMarshal sched (exchangeTest self exs) = some s) :
    s.panicked = none ∧
    (∃ later, exs.map (Exchange.result jsonMarshal) = s.client.got ++ later) ∧
    (∃ later, retsOf self exs = s.driver.log ++ later) ∧
    sched.length ≤ 19 * exs.length ∧
    (∃ more s2, run jsonMarshal (sched ++ more) (exchangeTest self exs) = some s2 ∧
      ∀ a, step jsonMarshal a s2 = none) ∧
    ((∀ a, step jsonMarshal a s = none) →
      s.client.running = none ∧ s.client.todo = [] ∧
      s.client.got = exs.map (Exchange.result jsonMarshal) ∧
      s.driver.running = none ∧ s.driver.script = [] ∧ s.driver.log = retsOf self exs) := by
  have hinv := Inv.run_preserved sched (Inv.initial jsonMarshal self exs) hrun
  have hlen := run_fuel jsonMarshal sched _ _ hrun hinv.delivered.1
  have hfuel := fuel_exchangeTest self exs
  refine ⟨hinv.delivered.1, hinv.delivered.2.1, hinv.delivered.2.2, by omega, ?_, hinv.stuck⟩
  obtain ⟨more, s2, hmore, hdone⟩ := Inv.finishes (fuel s) s (le_refl _) hinv
  exact ⟨more, s2, by rw [run_append jsonMarshal sched more _ s hrun]; exact hmore, hdone⟩


/-- Witness of C2: in the one-exchange test, in the state in which
`ReceiveRequest` has returned, `Respond` has not been called and the client
has run line 69, the driver is between the pull and the push and the counter
is 0. -/
theorem pendingCount_in_exchanges_witness :
    run sampleMarshal
      [.client, .client, .driver, .driver, .driver, .driver, .driver, .client]
      (exchangeTest 1 [.plain sampleRequest none none]) = some samplePlainMid ∧
    samplePlainMid.driver.betweenPullAndPush ∧
    (exchangeTest 1 [@Exchange.plain SamplePayload sampleRequest none none]).pendingMessageCount
      = some 0 ∧
    (∃ r, (samplePlainMid.client.running = some (r, .l69) ∧
          samplePlainMid.pendingMessageCount = some 1) ∨
        (samplePlainMid.client.running = some (r, .l72) ∧
          samplePlainMid.pendingMessageCount = some 0) ∨
        (samplePlainMid.client.running = some (r, .l73) ∧
          samplePlainMid.pendingMessageCount = some 1)) :=
  have hrun : run sampleMarshal
      [.client, .client, .driver, .driver, .driver, .driver, .driver, .client]
      (exchangeTest 1 [.plain sampleRequest none none]) = some samplePlainMid := rfl
  have hmid : samplePlainMid.driver.betweenPullAndPush := ⟨rfl, _, rfl, rfl⟩
  have h := pendingCount_in_exchanges sampleMarshal 1 [.plain sampleRequest none none]
    [.client, .client, .driver, .driver, .driver, .driver, .driver, .client]
    samplePlainMid hrun
  ⟨hrun, hmid, h.1, h.2.2 hmid⟩

/-- Counterexample to C2 as stated.  In the one-exchange test there is a
reachable state between `ReceiveRequest` returning and `Respond` being called
in which `GetPendingMessageCount` returns 0 (the client stands on line 72),
and a reachable state in which `RoundTrip` has returned and
`GetPendingMessageCount` returns 1 (the driver stands on line 109). -/
theorem pendingCount_not_positive_between :
    (run sampleMarshal
      [.client, .client, .driver, .driver, .driver, .driver, .driver, .client]
      samplePlainTest).map
      (fun s => (s.driver.running.isNone, s.driver.log, s.driver.script.length,
        s.client.running, s.pendingMessageCount)) =
      some (true, [.ReceiveRequest (some sampleRequest) true], 1,
        some (sampleRequest, .l72), some 0) ∧
    (run sampleMarshal
      [.client, .client, .driver, .driver, .driver, .driver, .driver, .client, .client,
       .driver, .driver, .driver, .driver, .client]
      samplePlainTest).map
      (fun s => (s.client.running, s.client.got, s.driver.running.isSome,
        s.pendingMessageCount)) =
      some (none, [(none, none)], true, some 1) :=
  ⟨rfl, rfl⟩

/-- Witness of C7: the one-exchange test driven by `ExpectRequest` and
`RespondWith`, run to its end in 17 steps: neither goroutine can move, the
client has the 200 response built from the payload and the driver has the
handle of the request. -/
theorem exchanges_delivered_in_order_witness :
    run sampleMarshal
      [.client, .client, .driver, .driver, .driver, .driver, .driver, .driver, .client,
       .client, .driver, .driver, .driver, .driver, .driver, .driver, .client]
      (exchangeTest 1 [.fluent sampleRequest "GET" "/api/spaces" .nameFoo]) =
      some sampleFluentDone ∧
    (∀ a, step sampleMarshal a sampleFluentDone = none) ∧
    sampleFluentDone.panicked = none ∧
    sampleFluentDone.client.got =
      [Exchange.fluent sampleRequest "GET" "/api/spaces" SamplePayload.nameFoo].map
        (Exchange.result sampleMarshal) ∧
    sampleFluentDone.driver.log =
      retsOf 1 [Exchange.fluent sampleRequest "GET" "/api/spaces" SamplePayload.nameFoo] ∧
    [Actor.client, .client, .driver, .driver, .driver, .driver, .driver, .driver, .client,
       .client, .driver, .driver, .driver, .driver, .driver, .driver, .client].length ≤
      19 * [Exchange.fluent sampleRequest "GET" "/api/spaces" SamplePayload.nameFoo].length :=
  have hrun : run sampleMarshal
      [.client, .client, .driver, .driver, .driver, .driver, .driver, .driver, .client,
       .client, .driver, .driver, .driver, .driver, .driver, .driver, .client]
      (exchangeTest 1 [.fluent sampleRequest "GET" "/api/spaces" .nameFoo]) =
      some sampleFluentDone := rfl
  have hstuck : ∀ a, step sampleMarshal a sampleFluentDone = none :=
    fun a => by cases a <;> rfl
  have h := exchanges_delivered_in_order sampleMarshal 1
    [.fluent sampleRequest "GET" "/api/spaces" .nameFoo]
    [.client, .client, .driver, .driver, .driver, .driver, .driver, .driver, .client,
     .client, .driver, .driver, .driver, .driver, .driver, .driver, .client]
    sampleFluentDone hrun
  ⟨hrun, hstuck, h.1, (h.2.2.2.2.2 hstuck).2.2.1, (h.2.2.2.2.2 hstuck).2.2.2.2.2, h.2.2.2.1⟩

end Octopus
